import Mathlib

/-
Verification development for the mongomodel object/document mapping layer
(src/mongomodel/fields.py, model.py, utils.py).

The embedding models Python values as the inductive type `Value`, Python
exceptions as `PyErr`, and fallible Python functions as `Except PyErr`.
Field instances are modelled by the inductive `Field`, one constructor per
field class in fields.py, each carrying the common constructor state
(`Cfg`, from Field.__init__) plus the variant-specific constructor
arguments.  Machine-level details that no theorem depends on (Python 2
float formatting, dateutil's full grammar, base64, the local-file write
side effect) are modelled by simple total functions and noted in comments
at their definition sites.
-/

namespace Mongomodel

/-- Naive-or-aware datetime value: `hasTz` models `tzinfo is not None`. -/
structure DtV where
  year : Nat
  month : Nat
  day : Nat
  hour : Nat
  minute : Nat
  second : Nat
  micro : Nat
  hasTz : Bool
deriving DecidableEq

/-- Python values reachable in this library's data paths. -/
inductive Value where
  | none
  | bool (b : Bool)
  | int (n : Int)
  | float (q : Rat)
  | str (s : String)
  | list (xs : List Value)
  | dict (kvs : List (String × Value))
  | datetime (d : DtV)
  | date (y m d : Nat)
  | uuid (n : Nat)
  | objectid (s : String)
  | binary (s : String)

/-- Python exceptions raised by the modelled code paths.
`validationError` is `FieldValidationError` (fields.py 7-15) after its
constructor ran: it carries the field name (`self.field`) and the final
message (already `[name]`-prefixed when the field is named). -/
inductive PyErr where
  | validationError (field : Option String) (message : String)
  | typeError
  | valueError (message : String)
  | keyError (k : String)
  | attributeError (attr : String)
  | indexError
  | overflowError
deriving DecidableEq

/-- Python truthiness (`not value` tests in fields.py 72, 82). -/
def pyFalsy : Value → Bool
  | .none => true
  | .bool b => !b
  | .int n => n == 0
  | .float q => q == 0
  | .str s => s == ""
  | .list xs => xs.isEmpty
  | .dict kvs => kvs.isEmpty
  | .datetime _ => false
  | .date _ _ _ => false
  | .uuid _ => false
  | .objectid _ => false
  | .binary s => s == ""

mutual
/-- Python `==` on values (used by `in`/`not in`/`!=` tests in the source).
Mirrors CPython: booleans compare equal to the numbers 0/1, ints compare
equal to numerically equal floats, dict comparison ignores entry order
(dict keys are unique, so same length plus one-sided inclusion is
equality). -/
def pyEq : Value → Value → Bool
  | .none, .none => true
  | .bool a, .bool b => a == b
  | .bool a, .int n => (if a then 1 else 0 : Int) == n
  | .int n, .bool a => (if a then 1 else 0 : Int) == n
  | .bool a, .float q => (if a then 1 else 0 : Rat) == q
  | .float q, .bool a => (if a then 1 else 0 : Rat) == q
  | .int n, .int m => n == m
  | .int n, .float q => ((n : Rat) == q)
  | .float q, .int n => ((n : Rat) == q)
  | .float p, .float q => p == q
  | .str a, .str b => a == b
  | .list xs, .list ys => pyEqList xs ys
  | .dict xs, .dict ys => (xs.length == ys.length) && pyEqDict xs ys
  | .datetime a, .datetime b => a == b
  | .date a b c, .date x y z => a == x && b == y && c == z
  | .uuid a, .uuid b => a == b
  | .objectid a, .objectid b => a == b
  | .binary a, .binary b => a == b
  | _, _ => false

/-- Elementwise Python `==` on lists. -/
def pyEqList : List Value → List Value → Bool
  | [], [] => true
  | x :: xs, y :: ys => pyEq x y && pyEqList xs ys
  | _, _ => false

/-- One-sided dict inclusion: every entry of the first dict has a matching
key in the second with a `pyEq`-equal value. -/
def pyEqDict : List (String × Value) → List (String × Value) → Bool
  | [], _ => true
  | (k, v) :: rest, ys =>
      (match ys.find? (fun p => p.1 == k) with
       | Option.none => false
       | Option.some p => pyEq v p.2) && pyEqDict rest ys
end

/-- Lookup in an association list standing for a Python dict (unique keys). -/
def dictGet : List (String × Value) → String → Option Value
  | [], _ => Option.none
  | (k, v) :: rest, key => if k = key then Option.some v else dictGet rest key

/-- Python `d[k] = v`: replace in place if the key exists, else append
(CPython dicts preserve nothing here — the source runs on Python 2 whose
dict order is arbitrary; the embedding fixes insertion order). -/
def dictSet : List (String × Value) → String → Value → List (String × Value)
  | [], key, v => [(key, v)]
  | (k, w) :: rest, key, v =>
      if k = key then (key, v) :: rest else (k, w) :: dictSet rest key v

/-- Python `dst.update(src)` on dicts: one-level, key-by-key assignment. -/
def dictUpdate (dst src : List (String × Value)) : List (String × Value) :=
  match src with
  | [] => dst
  | (k, v) :: rest => dictUpdate (dictSet dst k v) rest

/-- Python `str.strip()`: drop whitespace from both ends. -/
def pyStripList (l : List Char) : List Char :=
  ((l.dropWhile Char.isWhitespace).reverse.dropWhile Char.isWhitespace).reverse

/-- Index of the first occurrence of a character (Python `str.index`,
before its ValueError on absence). -/
def idxOfChar (c : Char) : List Char → Option Nat
  | [] => Option.none
  | x :: xs =>
      if x = c then Option.some 0
      else (idxOfChar c xs).map (· + 1)

/-- Index of the last occurrence of a character (Python `str.rindex`,
before its ValueError on absence). -/
def lastIdxOfChar (c : Char) (l : List Char) : Option Nat :=
  (idxOfChar c l.reverse).map (fun i => l.length - 1 - i)

/-- Python `s.split(sep)` for a single-character separator: always returns
at least one (possibly empty) group. -/
def splitChar (c : Char) : List Char → List (List Char)
  | [] => [[]]
  | x :: xs =>
      match splitChar c xs with
      | [] => [[]]
      | g :: gs => if x = c then [] :: g :: gs else (x :: g) :: gs

/-- Python `path.split('.')` on a string. -/
def pathSplit (s : String) : List String :=
  (splitChar '.' s.toList).map (fun l => String.mk l)

/-- Contiguous-sublist test: Python `needle in haystack` on strings. -/
def subListOf (needle : List Char) : List Char → Bool
  | [] => needle.isEmpty
  | x :: xs => needle.isPrefixOf (x :: xs) || subListOf needle xs

/-- Python `needle in haystack` on strings. -/
def pyStrContains (haystack needle : String) : Bool :=
  subListOf needle.toList haystack.toList

/-- Python `os.path.join(a, b)` for the shapes used in utils.py (relative
second component). -/
def pyPathJoin (a b : String) : String :=
  match a.toList.reverse with
  | '/' :: _ => a ++ b
  | _ => a ++ "/" ++ b

/-- All-decimal-digits parse. -/
def digitsToNat : List Char → Option Nat
  | [] => Option.none
  | l =>
      if l.all Char.isDigit then
        Option.some (l.foldl (fun acc c => acc * 10 + (c.toNat - 48)) 0)
      else Option.none

/-- Python `int(s)`: optional sign, decimal digits, surrounding whitespace. -/
def parseIntStr (s : String) : Option Int :=
  match pyStripList s.toList with
  | '-' :: rest => (digitsToNat rest).map (fun n => -(n : Int))
  | '+' :: rest => (digitsToNat rest).map (fun n => (n : Int))
  | l => (digitsToNat l).map (fun n => (n : Int))

/-- Digits with value and count (for fractional parts). -/
def fracToRat (l : List Char) : Option Rat :=
  if l.all Char.isDigit then
    Option.some ((l.foldl (fun acc c => acc * 10 + (c.toNat - 48)) 0 : Rat) /
      ((10 : Rat) ^ l.length))
  else Option.none

/-- Python `float(s)` restricted to sign, digits and one decimal point
(the exponent syntax is not exercised by this library's tests or paths). -/
def parseFloatStr (s : String) : Option Rat :=
  let core : List Char → Option Rat := fun l =>
    match splitChar '.' l with
    | [a] => (digitsToNat a).map (fun n => (n : Rat))
    | [a, b] =>
        if a.isEmpty ∧ b.isEmpty then Option.none
        else
          let ip : Rat := ((digitsToNat a).getD 0 : Nat)
          if a.all Char.isDigit ∧ b.all Char.isDigit then
            (if b.isEmpty then Option.some ip
             else (fracToRat b).map (fun f => ip + f))
          else Option.none
    | _ => Option.none
  match pyStripList s.toList with
  | '-' :: rest => (core rest).map (fun q => -q)
  | '+' :: rest => core rest
  | l => core l

/-- Truncation toward zero: Python `int(float)`. -/
def ratTrunc (q : Rat) : Int :=
  if 0 ≤ q then q.floor else q.ceil

/-- Round-half-even integer quotient of `a / b` (`b` positive). -/
def divRoundHalfEven (a b : Nat) : Nat :=
  let q := a / b
  let r := a % b
  if b < 2 * r ∨ (2 * r = b ∧ q % 2 = 1) then q + 1 else q

/-- Number of binary digits of `n` (0 for 0), by structural recursion on
a fuel argument so that concrete values reduce in the kernel. -/
def bitLenAux : Nat → Nat → Nat
  | 0, _ => 0
  | fuel + 1, n => if n = 0 then 0 else bitLenAux fuel (n / 2) + 1

/-- Number of binary digits of `n`: `bitLen 0 = 0`, `bitLen (2^k) = k+1`. -/
def bitLen (n : Nat) : Nat := bitLenAux n n

/-- Round a rational to the nearest IEEE-754 binary64 value (round half
to even), returned as the exact rational that value denotes.  Integral
values of magnitude at most 2^53 are exactly representable and returned
unchanged; otherwise the value is scaled to a 53-bit significand (the
exponent estimated from bit lengths, then corrected) and rounded.
Subnormal clamping at the bottom of the exponent range and the
infinities are not modelled: no code path a claim touches reaches
them. -/
def roundRatToDouble (q : Rat) : Rat :=
  if q.den = 1 ∧ q.num.natAbs ≤ 2 ^ 53 then q
  else
    let n := q.num.natAbs
    let d := q.den
    let scaled : Int → Nat × Nat := fun e =>
      if 0 ≤ e then (n, d * 2 ^ e.toNat) else (n * 2 ^ (-e).toNat, d)
    let fix : Int → Int := fun e =>
      let (a, b) := scaled e
      if 2 ^ 53 ≤ a / b then e + 1
      else if a / b < 2 ^ 52 then e - 1
      else e
    let e0 : Int := (bitLen n : Int) - (bitLen d : Int) - 52
    let e := fix (fix e0)
    let (a, b) := scaled e
    let m := divRoundHalfEven a b
    let mag : Rat :=
      if 0 ≤ e then ((m * 2 ^ e.toNat : Nat) : Rat)
      else (m : Rat) / ((2 ^ (-e).toNat : Nat) : Rat)
    if q.num < 0 then -mag else mag

/-- Lowercase hex digits of a Nat, `width`-zero-padded (for uuid formats). -/
def natToHexPadded (n width : Nat) : String :=
  let l := (Nat.toDigits 16 n).map Char.toLower
  String.mk (List.replicate (width - l.length) '0' ++ l)

/-- Hex-digit test. -/
def isHexDigit (c : Char) : Bool :=
  c.isDigit || ('a' ≤ c ∧ c ≤ 'f') || ('A' ≤ c ∧ c ≤ 'F')

/-- Hex parse. -/
def hexToNat (l : List Char) : Option Nat :=
  if l ≠ [] ∧ l.all isHexDigit then
    Option.some (l.foldl (fun acc c =>
      acc * 16 + (if c.isDigit then c.toNat - 48
                  else if 'a' ≤ c then c.toNat - 87 else c.toNat - 55)) 0)
  else Option.none

/-- Zero-pad a decimal rendering to two digits (ISO-8601 components). -/
def pad2 (n : Nat) : String :=
  if n < 10 then "0" ++ toString n else toString n

/-- Zero-pad to four digits. -/
def pad4 (n : Nat) : String :=
  if n < 10 then "000" ++ toString n
  else if n < 100 then "00" ++ toString n
  else if n < 1000 then "0" ++ toString n
  else toString n

/-- Zero-pad to six digits (microseconds). -/
def pad6 (n : Nat) : String :=
  String.mk (List.replicate (6 - (toString n).length) '0' ++ (toString n).toList)

/-- `datetime.isoformat()` for the modelled datetime (the `+HH:MM` offset
rendering of aware datetimes is collapsed to a `+00:00` marker: no claim
inspects offsets). -/
def isoOfDt (d : DtV) : String :=
  pad4 d.year ++ "-" ++ pad2 d.month ++ "-" ++ pad2 d.day ++ "T" ++
    pad2 d.hour ++ ":" ++ pad2 d.minute ++ ":" ++ pad2 d.second ++
    (if d.micro == 0 then "" else "." ++ pad6 d.micro) ++
    (if d.hasTz then "+00:00" else "")

/-- `date.isoformat()`. -/
def isoOfDate (y m d : Nat) : String :=
  pad4 y ++ "-" ++ pad2 m ++ "-" ++ pad2 d

/-- `dateutil.parser.parse` restricted to the ISO-8601 subset this library
itself emits (dateutil accepts far more formats; none are exercised). -/
def parseIsoDt (s : String) : Option DtV :=
  match splitChar 'T' s.toList with
  | [datePart, timePart] =>
      (match splitChar '-' datePart, splitChar ':' timePart with
       | [y, mo, dy], [h, mi, se] => do
           let y ← digitsToNat y
           let mo ← digitsToNat mo
           let dy ← digitsToNat dy
           let h ← digitsToNat h
           let mi ← digitsToNat mi
           let (sec, micro) ←
             match splitChar '.' se with
             | [whole] => (digitsToNat whole).map (fun n => (n, 0))
             | [whole, fr] => do
                 let w ← digitsToNat whole
                 let f ← digitsToNat fr
                 pure (w, f)
             | _ => Option.none
           pure ⟨y, mo, dy, h, mi, sec, micro, false⟩
       | _, _ => Option.none)
  | [datePart] =>
      (match splitChar '-' datePart with
       | [y, mo, dy] => do
           let y ← digitsToNat y
           let mo ← digitsToNat mo
           let dy ← digitsToNat dy
           pure ⟨y, mo, dy, 0, 0, 0, 0, false⟩
       | _ => Option.none)
  | _ => Option.none

/-- Days from civil date (proleptic Gregorian), days since 1970-01-01. -/
def daysFromCivil (y m d : Nat) : Int :=
  let y' : Int := (y : Int) - (if m ≤ 2 then 1 else 0)
  let era : Int := (if 0 ≤ y' then y' else y' - 399) / 400
  let yoe : Int := y' - era * 400
  let mp : Int := ((m : Int) + 9) % 12
  let doy : Int := (153 * mp + 2) / 5 + (d : Int) - 1
  let doe : Int := yoe * 365 + yoe / 4 - yoe / 100 + doy
  era * 146097 + doe - 719468

/-- `time.mktime(value.timetuple())` for a naive datetime, with the local
timezone taken as UTC (the host timezone is environment state the claims
do not depend on); `timetuple()` drops microseconds. -/
def dtToEpoch (d : DtV) : Int :=
  daysFromCivil d.year d.month d.day * 86400 +
    (d.hour : Int) * 3600 + (d.minute : Int) * 60 + (d.second : Int)

/-- Civil date from days since 1970-01-01 (inverse of `daysFromCivil`). -/
def civilFromDays (z : Int) : Nat × Nat × Nat :=
  let z := z + 719468
  let era : Int := (if 0 ≤ z then z else z - 146096) / 146097
  let doe : Int := z - era * 146097
  let yoe : Int := (doe - doe / 1460 + doe / 36524 - doe / 146096) / 365
  let y : Int := yoe + era * 400
  let doy : Int := doe - (365 * yoe + yoe / 4 - yoe / 100)
  let mp : Int := (5 * doy + 2) / 153
  let d : Int := doy - (153 * mp + 2) / 5 + 1
  let m : Int := mp + (if mp < 10 then 3 else -9)
  ((y + (if m ≤ 2 then 1 else 0)).toNat, m.toNat, d.toNat)

/-- `datetime.fromtimestamp` (UTC-as-local, second precision). -/
def epochToDt (t : Int) : DtV :=
  let days : Int := t / 86400
  let rem : Int := t % 86400
  let (days, rem) := if rem < 0 then (days - 1, rem + 86400) else (days, rem)
  let (y, m, d) := civilFromDays days
  ⟨y, m, d, (rem / 3600).toNat, ((rem % 3600) / 60).toNat, (rem % 60).toNat,
    0, false⟩

/-- JSON string escaping (quote and backslash; control characters do not
occur in the modelled payloads). -/
def jsonEscape (s : String) : String :=
  String.mk (s.toList.foldr (fun c acc =>
    if c = '"' ∨ c = '\\' then '\\' :: c :: acc else c :: acc) [])

/-- `repr`-style float rendering used by `json.dumps` for the rationals
standing in for Python floats (exact for the integral floats that occur). -/
def floatRepr (q : Rat) : String :=
  if q.den == 1 then
    toString q.num ++ ".0"
  else
    toString q.num ++ "/" ++ toString q.den

mutual
/-- `json.dumps(value)` with no `default=` hook: fails with TypeError on
values outside the JSON universe (datetimes, object ids, ...). -/
def jsonDumps : Value → Except PyErr String
  | .none => .ok "null"
  | .bool b => .ok (if b then "true" else "false")
  | .int n => .ok (toString n)
  | .float q => .ok (floatRepr q)
  | .str s => .ok ("\"" ++ jsonEscape s ++ "\"")
  | .list xs => do
      let parts ← jsonDumpsList xs
      .ok ("[" ++ String.intercalate ", " parts ++ "]")
  | .dict kvs => do
      let parts ← jsonDumpsDict kvs
      .ok ("\x7b" ++ String.intercalate ", " parts ++ "\x7d")
  | _ => .error .typeError

/-- Serialize list elements. -/
def jsonDumpsList : List Value → Except PyErr (List String)
  | [] => .ok []
  | x :: xs => do
      let s ← jsonDumps x
      let rest ← jsonDumpsList xs
      .ok (s :: rest)

/-- Serialize object members. -/
def jsonDumpsDict : List (String × Value) → Except PyErr (List String)
  | [] => .ok []
  | (k, v) :: rest => do
      let s ← jsonDumps v
      let r ← jsonDumpsDict rest
      .ok (("\"" ++ jsonEscape k ++ "\": " ++ s) :: r)
end

/-- Whitespace skip for the JSON reader. -/
def jsonSkipWs (l : List Char) : List Char :=
  l.dropWhile (fun c => c = ' ' ∨ c = '\t' ∨ c = '\n' ∨ c = '\r')

/-- Read a JSON string body after the opening quote. -/
def jsonReadString : List Char → Option (String × List Char)
  | [] => Option.none
  | '\\' :: c :: rest =>
      (jsonReadString rest).map (fun (s, r) =>
        (String.mk (c :: s.toList), r))
  | '"' :: rest => Option.some ("", rest)
  | c :: rest =>
      (jsonReadString rest).map (fun (s, r) => (String.mk (c :: s.toList), r))

/-- Read a JSON number (integer or decimal fraction). -/
def jsonReadNumber (l : List Char) : Option (Value × List Char) :=
  let (sign, l) := match l with
    | '-' :: rest => ((-1 : Int), rest)
    | rest => ((1 : Int), rest)
  let digits := l.takeWhile Char.isDigit
  let rest := l.dropWhile Char.isDigit
  match digitsToNat digits with
  | Option.none => Option.none
  | Option.some n =>
      match rest with
      | '.' :: rest' =>
          let fr := rest'.takeWhile Char.isDigit
          (fracToRat fr).map (fun f =>
            (Value.float ((sign : Rat) * ((n : Rat) + f)),
             rest'.dropWhile Char.isDigit))
      | _ => Option.some (Value.int (sign * (n : Int)), rest)

mutual
/-- Fueled JSON reader (`json.loads` body); the fuel is the input length,
which bounds the recursion depth. -/
def jsonRead : Nat → List Char → Option (Value × List Char)
  | 0, _ => Option.none
  | Nat.succ fuel, l =>
      match jsonSkipWs l with
      | 'n' :: 'u' :: 'l' :: 'l' :: rest => Option.some (.none, rest)
      | 't' :: 'r' :: 'u' :: 'e' :: rest => Option.some (.bool true, rest)
      | 'f' :: 'a' :: 'l' :: 's' :: 'e' :: rest =>
          Option.some (.bool false, rest)
      | '"' :: rest =>
          (jsonReadString rest).map (fun (s, r) => (Value.str s, r))
      | '[' :: rest =>
          (match jsonSkipWs rest with
           | ']' :: r => Option.some (.list [], r)
           | _ =>
              (jsonReadItems fuel rest).map (fun (xs, r) => (Value.list xs, r)))
      | '\x7b' :: rest =>
          (match jsonSkipWs rest with
           | '\x7d' :: r => Option.some (.dict [], r)
           | _ =>
              (jsonReadMembers fuel rest).map (fun (kvs, r) =>
                (Value.dict kvs, r)))
      | rest => jsonReadNumber rest

/-- Comma-separated array items up to `]`. -/
def jsonReadItems : Nat → List Char → Option (List Value × List Char)
  | 0, _ => Option.none
  | Nat.succ fuel, l => do
      let (v, rest) ← jsonRead fuel l
      match jsonSkipWs rest with
      | ',' :: rest' => do
          let (xs, r) ← jsonReadItems fuel rest'
          pure (v :: xs, r)
      | ']' :: rest' => pure ([v], rest')
      | _ => Option.none

/-- Comma-separated object members up to the closing brace. -/
def jsonReadMembers : Nat → List Char → Option (List (String × Value) × List Char)
  | 0, _ => Option.none
  | Nat.succ fuel, l =>
      match jsonSkipWs l with
      | '"' :: rest => do
          let (k, r1) ← jsonReadString rest
          match jsonSkipWs r1 with
          | ':' :: r2 => do
              let (v, r3) ← jsonRead fuel r2
              match jsonSkipWs r3 with
              | ',' :: r4 => do
                  let (kvs, r5) ← jsonReadMembers fuel r4
                  pure ((k, v) :: kvs, r5)
              | '\x7d' :: r4 => pure ([(k, v)], r4)
              | _ => Option.none
          | _ => Option.none
      | _ => Option.none
end

/-- `json.loads(s)`: parse a complete document, ValueError on garbage. -/
def jsonLoads (s : String) : Except PyErr Value :=
  match jsonRead (s.length + 1) s.toList with
  | Option.some (v, rest) =>
      if (jsonSkipWs rest).isEmpty then .ok v
      else .error (.valueError "Extra data")
  | Option.none => .error (.valueError "No JSON object could be decoded")

/-- A conversion/validation pipeline step as run by `Field._process`:
either a type constructor applied to the value or a
`(value, field_instance)` function with the field closed over. -/
abbrev Step := Value → Except PyErr Value

/-- Common constructor state of every field (Field.__init__, fields.py
30-37), plus `name` (fields.py 23, assigned at schema assembly by the
metaclass, model.py 47-48). -/
structure Cfg where
  required : Bool := true
  auto : Bool := false
  unique : Bool := false
  default : Value := .none
  name : Option String := Option.none
  toMongoCustom : List Step := []
  toPythonCustom : List Step := []

/-- One constructor per field class of fields.py, carrying the
variant-specific constructor arguments next to the common `Cfg`. -/
inductive Field where
  | base (cfg : Cfg)
  | text (cfg : Cfg)
  | email (cfg : Cfg)
  | url (https : Bool) (cfg : Cfg)
  | boolean (cfg : Cfg)
  | integer (choices : List (Value × Value)) (cfg : Cfg)
  | floatF (cfg : Cfg)
  | json (cfg : Cfg)
  | dictF (cfg : Cfg)
  | datetimeF (hasTz : Bool) (cfg : Cfg)
  | dateF (cfg : Cfg)
  | timestampF (fmtFloat : Bool) (cfg : Cfg)
  | uuidF (fmt : String) (cfg : Cfg)
  | objectIdF (cfg : Cfg)
  | listF (elem : Field) (cfg : Cfg)
  | setF (elem : Field) (cfg : Cfg)
  | embedded (schema : List (String × Field)) (cfg : Cfg)
  | binaryFile (cfg : Cfg)
  | localFile (mediaRoot mediaUrl : String) (cfg : Cfg)

/-- The common constructor state of a field. -/
def Field.cfg : Field → Cfg
  | .base c => c
  | .text c => c
  | .email c => c
  | .url _ c => c
  | .boolean c => c
  | .integer _ c => c
  | .floatF c => c
  | .json c => c
  | .dictF c => c
  | .datetimeF _ c => c
  | .dateF c => c
  | .timestampF _ c => c
  | .uuidF _ c => c
  | .objectIdF c => c
  | .listF _ c => c
  | .setF _ c => c
  | .embedded _ c => c
  | .binaryFile c => c
  | .localFile _ _ c => c

/-- Python class name of the variant (`self.__class__.__name__`). -/
def Field.className : Field → String
  | .base _ => "Field"
  | .text _ => "TextField"
  | .email _ => "EmailField"
  | .url _ _ => "URLField"
  | .boolean _ => "BooleanField"
  | .integer _ _ => "IntegerField"
  | .floatF _ => "FloatField"
  | .json _ => "JSONField"
  | .dictF _ => "DictField"
  | .datetimeF _ _ => "DateTimeField"
  | .dateF _ => "DateField"
  | .timestampF _ _ => "TimestampField"
  | .uuidF _ _ => "UUIDField"
  | .objectIdF _ => "ObjectIdField"
  | .listF _ _ => "ListField"
  | .setF _ _ => "SetField"
  | .embedded _ _ => "EmbeddedDocumentField"
  | .binaryFile _ => "BinaryFileField"
  | .localFile _ _ _ => "LocalFileField"

/-- `isinstance(self, BooleanField)` (fields.py 64). -/
def Field.isBooleanF : Field → Bool
  | .boolean _ => true
  | _ => false

/-- `isinstance(self, (TextField, ObjectIdField))` (fields.py 72, 82):
EmailField and URLField are TextField subclasses. -/
def Field.isTextOrObjectId : Field → Bool
  | .text _ => true
  | .email _ => true
  | .url _ _ => true
  | .objectIdF _ => true
  | _ => false

/-- `isinstance(field, fields.ListField)` (model.py 270): SetField is a
ListField subclass. -/
def Field.isListLike : Field → Bool
  | .listF _ _ => true
  | .setF _ _ => true
  | _ => false

/-- `isinstance(field, fields.EmbeddedDocumentField)` (model.py 275). -/
def Field.isEmbeddedF : Field → Bool
  | .embedded _ _ => true
  | _ => false

/-- `FieldValidationError(message, instance)` (fields.py 7-15): empty
message defaults to `Not a valid <class>`; a named field prefixes
`[name]`. -/
def fieldError (f : Field) (message : String) : PyErr :=
  let msg := if message = "" then "Not a valid " ++ f.className else message
  match f.cfg.name with
  | Option.some n => .validationError (Option.some n) ("[" ++ n ++ "] " ++ msg)
  | Option.none => .validationError Option.none msg

/-- `_update_operators` per variant (fields.py 25, 166-167, 182-183,
206-207, 251-252, 307-308; SetField inherits ListField's). -/
def Field.updateOps : Field → List String
  | .integer _ _ =>
      ["$inc", "$mul", "$setOnInsert", "$set", "$unset", "$min", "$max",
       "$bit"]
  | .floatF _ =>
      ["$inc", "$mul", "$setOnInsert", "$set", "$unset", "$min", "$max"]
  | .datetimeF _ _ =>
      ["$setOnInsert", "$set", "$min", "$max", "$currentDate"]
  | .timestampF _ _ =>
      ["$setOnInsert", "$set", "$min", "$max", "$currentDate"]
  | .listF _ _ =>
      ["$setOnInsert", "$set", "$unset", "$", "$addToSet", "$pop",
       "$pullAll", "$pull", "$pushAll", "$push"]
  | .setF _ _ =>
      ["$setOnInsert", "$set", "$unset", "$", "$addToSet", "$pop",
       "$pullAll", "$pull", "$pushAll", "$push"]
  | _ => ["$setOnInsert", "$set", "$unset"]

/-- `ListField._update_modifiers` (fields.py 309). -/
def listUpdateModifiers : List String :=
  ["$each", "$slice", "$sort", "$position"]

/-- Run the pipeline steps in declaration order with no exception
handling: the raw behaviour of the loop body of `Field._process`
(fields.py 51-55). -/
def runSteps : List Step → Value → Except PyErr Value
  | [], v => .ok v
  | g :: rest, v =>
      match g v with
      | .ok w => runSteps rest w
      | .error e => .error e

/-- The except-clauses of `Field._process` (fields.py 56-59): a
ValidationError from a step is re-raised unchanged, any other exception
is replaced by `self.ValidationError(instance=self)`. -/
def wrapStepError (f : Field) (e : PyErr) : PyErr :=
  match e with
  | .validationError fl m => .validationError fl m
  | _ => fieldError f ""

/-- `Field._process(value, *args)` (fields.py 49-60). -/
def process (f : Field) (steps : List Step) (v : Value) : Except PyErr Value :=
  match runSteps steps v with
  | .ok w => .ok w
  | .error e => .error (wrapStepError f e)

/-- `unicode(value)`-style repr for container values (only strings flow
through the text pipelines in any claim; the container renderings are
best-effort Python 2 repr). -/
def reprValue : Value → String
  | .none => "None"
  | .bool b => if b then "True" else "False"
  | .int n => toString n
  | .float q => floatRepr q
  | .str s => s
  | .list _ => "[...]"
  | .dict _ => "\x7b...\x7d"
  | .datetime d => isoOfDt d
  | .date y m d => isoOfDate y m d
  | .uuid n => natToHexPadded n 32
  | .objectid s => s
  | .binary s => s

/-- The `unicode` type constructor as a pipeline step: total in Python,
returns the value's text form. -/
def pyUnicode : Step := fun v => .ok (.str (reprValue v))

/-- utils.validate_text (utils.py 56-60). -/
def validateText (f : Field) : Step := fun v =>
  match v with
  | .str s =>
      if f.cfg.required && (pyStripList s.toList).isEmpty then
        .error (fieldError f "Value can not be empty")
      else .ok v
  | _ => .error (.attributeError "strip")

/-- utils.validate_email (utils.py 63-68): `index('@')`/`rindex('.')`
raise ValueError when absent; the positional rule requires the at-sign
index strictly greater than 1, the last dot more than two places after
it, and at least two characters after the dot. -/
def validateEmail (f : Field) : Step := fun v =>
  match v with
  | .str s =>
      (match idxOfChar '@' s.toList, lastIdxOfChar '.' s.toList with
       | Option.some ixat, Option.some ixdot =>
           if 1 < ixat ∧ ixat + 2 < ixdot ∧ ixdot + 2 < s.toList.length then
             .ok v
           else .error (fieldError f "")
       | _, _ => .error (.valueError "substring not found"))
  | _ => .error (.attributeError "index")

/-- utils.clean_url (utils.py 71-75). -/
def cleanUrl (https : Bool) : Step := fun v =>
  match v with
  | .str s =>
      if s.startsWith "http://" || s.startsWith "https://" then .ok v
      else .ok (.str ((if https then "https" else "http") ++ "://" ++ s))
  | _ => .error (.attributeError "startswith")

/-- Word character of the `\w` regex class. -/
def isWordChar (c : Char) : Bool :=
  c.isAlphanum || c = '_'

/-- Suffix test for the tail of utils.validate_url's pattern: the last
`k` characters are word characters preceded by a dot. -/
def endsWithDotWord (k : Nat) (l : List Char) : Bool :=
  let r := l.reverse
  ((r.take k).length == k) && (r.take k).all isWordChar &&
    (match r.drop k with
     | '.' :: _ => true
     | _ => false)

/-- The regex of utils.validate_url (utils.py 87):
`^(http|https)://(.*)?((\.\w\x7b2\x7d)|(\.\w\x7b3\x7d))$`. -/
def urlRegexMatch (s : String) : Bool :=
  let l := s.toList
  (s.startsWith "http://" &&
    (endsWithDotWord 2 (l.drop 7) || endsWithDotWord 3 (l.drop 7))) ||
  (s.startsWith "https://" &&
    (endsWithDotWord 2 (l.drop 8) || endsWithDotWord 3 (l.drop 8)))

/-- utils.validate_url (utils.py 86-90). -/
def validateUrl (f : Field) : Step := fun v =>
  match v with
  | .str s => if urlRegexMatch s then .ok v else .error (fieldError f "")
  | _ => .error .typeError

/-- utils.clean_bool (utils.py 78-83). -/
def cleanBool : Step := fun v =>
  match v with
  | .str "on" => .ok (.bool true)
  | .str "off" => .ok (.bool false)
  | _ => .ok v

/-- The `bool` type constructor as a step: Python truthiness. -/
def pyBool : Step := fun v => .ok (.bool (!pyFalsy v))

/-- utils.load_choice (utils.py 45-53): map a display value back to its
key when the field declares choices. -/
def loadChoice (choices : List (Value × Value)) : Step := fun v =>
  if choices.isEmpty then .ok v
  else
    match choices.find? (fun p => pyEq p.2 v) with
    | Option.some p => .ok p.1
    | Option.none => .ok v

/-- utils.validate_choices (utils.py 34-42). -/
def validateChoices (choices : List (Value × Value)) (f : Field) : Step :=
  fun v =>
    if choices.isEmpty then .ok v
    else if choices.any (fun p => pyEq p.1 v) then .ok v
    else .error (fieldError f "Value not in field choices")

/-- The `float` type constructor as a step.  `float(int)` rounds to the
nearest IEEE-754 double — integers beyond 2^53 lose their low bits — and
raises OverflowError when the rounded magnitude reaches 2^1024;
`float(float)` is the identity; decimal strings are parsed and rounded
the same way (CPython returns an infinity for huge decimal strings,
which `Value` cannot hold — modelled as the overflow error, unreachable
from any claim). -/
def pyFloat : Step := fun v =>
  match v with
  | .int n =>
      let r := roundRatToDouble (n : Rat)
      if 2 ^ 1024 * r.den ≤ r.num.natAbs then .error .overflowError
      else .ok (.float r)
  | .float q => .ok (.float q)
  | .bool b => .ok (.float (if b then 1 else 0))
  | .str s =>
      (match parseFloatStr s with
       | Option.some q =>
           let r := roundRatToDouble q
           if 2 ^ 1024 * r.den ≤ r.num.natAbs then .error .overflowError
           else .ok (.float r)
       | Option.none =>
           .error (.valueError "could not convert string to float"))
  | _ => .error .typeError

/-- The `int` type constructor as a step (truncates floats toward zero). -/
def pyInt : Step := fun v =>
  match v with
  | .int n => .ok (.int n)
  | .float q => .ok (.int (ratTrunc q))
  | .bool b => .ok (.int (if b then 1 else 0))
  | .str s =>
      (match parseIntStr s with
       | Option.some n => .ok (.int n)
       | Option.none => .error (.valueError "invalid literal for int"))
  | _ => .error .typeError

/-- The `dict` type constructor as a step: copies a mapping, builds one
from an iterable of key/value pairs, TypeError otherwise. -/
def pyDictStep : Step := fun v =>
  match v with
  | .dict kvs => .ok (.dict kvs)
  | .list xs =>
      (xs.foldr (fun x acc =>
          match x, acc with
          | .list [.str k, w], .ok (Value.dict kvs) => .ok (.dict ((k, w) :: kvs))
          | _, .ok _ => .error PyErr.typeError
          | _, e => e)
        (.ok (.dict [])))
  | _ => .error .typeError

/-- The JSONField serialization lambda (fields.py 196) calls
`utils.encode_json`, an attribute the utils module does not define (it
defines `json_encode`): invoking the step raises AttributeError, which
`_process` then wraps. -/
def jsonFieldStep : Step := fun _ => .error (.attributeError "encode_json")

/-- utils.load_datetime (utils.py 101-106): parse text, promote a date,
pass everything else through unchanged. -/
def loadDatetime : Step := fun v =>
  match v with
  | .str s =>
      (match parseIsoDt s with
       | Option.some d => .ok (.datetime d)
       | Option.none => .error (.valueError "unknown string format"))
  | .date y m d => .ok (.datetime ⟨y, m, d, 0, 0, 0, 0, false⟩)
  | _ => .ok v

/-- utils.validate_timezone (utils.py 109-112). -/
def validateTimezone (hasTz : Bool) (f : Field) : Step := fun v =>
  if hasTz then
    match v with
    | .datetime d => if d.hasTz then .ok v else .error (fieldError f "")
    | _ => .error (.attributeError "tzinfo")
  else .ok v

/-- utils.set_timezone (utils.py 115-118). -/
def setTimezone (hasTz : Bool) : Step := fun v =>
  if hasTz then
    match v with
    | .datetime d => .ok (.datetime { d with hasTz := true })
    | _ => .error (.attributeError "replace")
  else .ok v

/-- utils.isodate (utils.py 121-122). -/
def isoDateStep : Step := fun v =>
  match v with
  | .datetime d => .ok (.str (isoOfDt d))
  | .date y m d => .ok (.str (isoOfDate y m d))
  | _ => .error (.attributeError "isoformat")

/-- utils.load_date (utils.py 125-130). -/
def loadDate : Step := fun v =>
  match v with
  | .str s =>
      (match parseIsoDt s with
       | Option.some d => .ok (.date d.year d.month d.day)
       | Option.none => .error (.valueError "unknown string format"))
  | .datetime d => .ok (.date d.year d.month d.day)
  | _ => .ok v

/-- utils.timestamp_to_datetime (utils.py 139-140). -/
def timestampToDatetime : Step := fun v =>
  match v with
  | .int n => .ok (.datetime (epochToDt n))
  | .float q => .ok (.datetime (epochToDt (ratTrunc q)))
  | _ => .error .typeError

/-- Canonical hyphenated form of a UUID. -/
def uuidCanonical (n : Nat) : String :=
  let h := (natToHexPadded n 32).toList
  String.mk (h.take 8 ++ ['-'] ++ (h.drop 8).take 4 ++ ['-'] ++
    (h.drop 12).take 4 ++ ['-'] ++ (h.drop 16).take 4 ++ ['-'] ++ h.drop 20)

/-- utils.format_uuid (utils.py 143-148). -/
def formatUuid (fmt : String) : Step := fun v =>
  match v with
  | .uuid n =>
      if fmt = "str" then .ok (.str (uuidCanonical n))
      else if fmt = "hex" then .ok (.str (natToHexPadded n 32))
      else if fmt = "int" then .ok (.int (n : Int))
      else if fmt = "urn" then .ok (.str ("urn:uuid:" ++ uuidCanonical n))
      else .error (.attributeError fmt)
  | _ => .error (.attributeError fmt)

/-- utils.load_uuid (utils.py 151-156). -/
def loadUuid : Step := fun v =>
  match v with
  | .str s =>
      let body := if s.startsWith "urn:uuid:" then s.drop 9 else s
      let hexed := body.toList.filter (fun c => c ≠ '-')
      (match hexToNat hexed with
       | Option.some n =>
           if hexed.length = 32 then .ok (.uuid n)
           else .error (.valueError "badly formed hexadecimal UUID string")
       | Option.none =>
           .error (.valueError "badly formed hexadecimal UUID string"))
  | .int n =>
      if 0 ≤ n then .ok (.uuid n.toNat)
      else .error (.valueError "int is out of range")
  | _ => .error .typeError

/-- utils.load_objectid (utils.py 159-162): text is parsed to ObjectId
(24 hex characters, else bson raises InvalidId); anything else passes
through unchanged. -/
def loadObjectid : Step := fun v =>
  match v with
  | .str s =>
      if s.toList.length = 24 ∧ s.toList.all isHexDigit then
        .ok (.objectid s)
      else .error (.valueError "is not a valid ObjectId")
  | _ => .ok v

/-- utils.load_binary_file (utils.py 165-176): `Binary(json.dumps(value))`;
the UnicodeDecodeError/base64 branch concerns Python 2 byte strings,
which the unicode-clean `Value.str` cannot produce. -/
def loadBinaryFile : Step := fun v =>
  match jsonDumps v with
  | .ok s => .ok (.binary s)
  | .error e => .error e

/-- utils.decode_json (utils.py 179-180). -/
def decodeJson : Step := fun v =>
  match v with
  | .binary s => jsonLoads s
  | .str s => jsonLoads s
  | _ => .error .typeError

/-- utils.load_local_file (utils.py 183-193): replaces a payload carrying
a `body` with its `url`/`path`/`content_type` descriptor (the file write
is an external side effect with no bearing on the returned value). -/
def loadLocalFile (mediaRoot mediaUrl : String) : Step := fun v =>
  match v with
  | .dict kvs =>
      if (dictGet kvs "body").isSome then
        match dictGet kvs "filename" with
        | Option.some (.str fn) =>
            (match dictGet kvs "content_type" with
             | Option.some ct =>
                 .ok (.dict [("url", .str (pyPathJoin mediaUrl fn)),
                             ("path", .str (pyPathJoin mediaRoot fn)),
                             ("content_type", ct)])
             | Option.none => .error (.keyError "content_type"))
        | Option.some _ => .error .typeError
        | Option.none => .error (.keyError "filename")
      else .ok v
  | _ => .error .typeError

/-- Python `set(...)` as a step: deduplicate (first occurrence kept; the
arbitrary hash order of Python 2 sets is fixed to input order here). -/
def pySetStep : Step := fun v =>
  match v with
  | .list xs =>
      .ok (.list (xs.foldl (fun acc x =>
        if acc.any (fun y => pyEq y x) then acc else acc ++ [x]) []))
  | _ => .error .typeError

/-- Python `list(...)` as a step. -/
def pyListStep : Step := fun v =>
  match v with
  | .list xs => .ok (.list xs)
  | .dict kvs => .ok (.list (kvs.map (fun p => .str p.1)))
  | .str s => .ok (.list (s.toList.map (fun c => .str (String.mk [c]))))
  | _ => .error .typeError

/-- `Document.__init__(**kwargs)` data assembly for an embedded document
(model.py 138-145): every schema field starts at its default, then the
keyword values are stored verbatim through `Field.__set__`; keys outside
the schema end up as plain instance attributes, not in `_data`. -/
def docInitData (schema : List (String × Field)) (kvs : List (String × Value)) :
    List (String × Value) :=
  schema.map (fun p => (p.1, (dictGet kvs p.1).getD p.2.cfg.default))

mutual
/-- The ordered built-in `to_mongo` pipeline each variant passes down to
`Field.to_mongo` after the full super() chain (fields.py: TextField 128,
EmailField 135, URLField 146, BooleanField 153, ChoicesMixin 117 +
IntegerField 169, FloatField 185, JSONField 194, DictField 201,
DateTimeField 220, DateField 241, UUIDField 286, ObjectIdField 297,
ListField 319, SetField 384, BinaryFileField 423, LocalFileField 439). -/
def toMongoSteps (f : Field) : List Step :=
  match f with
  | .base _ => []
  | .text _ => [pyUnicode, validateText f]
  | .email _ => [pyUnicode, validateText f, validateEmail f]
  | .url https _ => [pyUnicode, validateText f, cleanUrl https, validateUrl f]
  | .boolean _ => [cleanBool, pyBool]
  | .integer choices _ =>
      [loadChoice choices, validateChoices choices f, pyFloat, pyInt]
  | .floatF _ => [pyFloat]
  | .json _ => [jsonFieldStep]
  | .dictF _ => [pyDictStep]
  | .datetimeF hasTz _ =>
      [loadDatetime, validateTimezone hasTz f, setTimezone hasTz, isoDateStep]
  | .dateF _ => [loadDate, isoDateStep]
  | .timestampF _ _ => []
  | .uuidF fmt _ => [formatUuid fmt]
  | .objectIdF _ => [loadObjectid]
  | .listF elem _ => [fun v => listToMongo elem v]
  | .setF elem _ => [fun v => listToMongo elem v, pySetStep, pyListStep]
  | .embedded _ _ => []
  | .binaryFile _ => [loadBinaryFile]
  | .localFile root url _ => [loadLocalFile root url]
termination_by (sizeOf f, 0, 0)

/-- utils.list_to_mongo (utils.py 93-94): map the element field's
`to_mongo` over the members of the iterable. -/
def listToMongo (elem : Field) (v : Value) : Except PyErr Value :=
  match v with
  | .list xs =>
      (match toMongoElems elem xs with
       | .ok ws => .ok (.list ws)
       | .error e => .error e)
  | .str s =>
      (match toMongoElems elem (s.toList.map (fun c => .str (String.mk [c]))) with
       | .ok ws => .ok (.list ws)
       | .error e => .error e)
  | .dict kvs =>
      (match toMongoElems elem (kvs.map (fun p => .str p.1)) with
       | .ok ws => .ok (.list ws)
       | .error e => .error e)
  | _ => .error .typeError
termination_by (sizeOf elem, 3, 0)

/-- Elementwise `field.to_mongo(i)` (with default custom=True). -/
def toMongoElems (elem : Field) (xs : List Value) : Except PyErr (List Value) :=
  match xs with
  | [] => .ok []
  | x :: rest =>
      match toMongo elem true x with
      | .error e => .error e
      | .ok w =>
          match toMongoElems elem rest with
          | .error e => .error e
          | .ok ws => .ok (w :: ws)
termination_by (sizeOf elem, 2, sizeOf xs)

/-- `Field.to_mongo(value, *args, **kwargs)` (fields.py 62-77) together
with the variant overrides that bypass it: TimestampField.to_mongo
(fields.py 261-263) evaluates `self.load_timestamp`, an attribute no
class defines (the function lives at utils.load_timestamp), so it raises
AttributeError before any other logic; EmbeddedDocumentField.to_mongo
(fields.py 404-412) replaces the pipeline with a recursive document
conversion. -/
def toMongo : Field → Bool → Value → Except PyErr Value
  | .timestampF _ _, _, _ => .error (.attributeError "load_timestamp")
  | .embedded schema cfg, _, .none =>
      if cfg.required then
        .error (fieldError (.embedded schema cfg) "Value can not be none if required")
      else .ok .none
  | .embedded _ _, _, .dict [] => .ok (.dict [])
  | .embedded schema _, _, .dict kvs =>
      (match docDataToMongo schema (docInitData schema kvs) with
       | .ok out => .ok (.dict out)
       | .error e => .error e)
  | .embedded _ _, _, _ => .error .typeError
  | f, custom, v =>
      match v with
      | .none =>
          if f.isBooleanF then .ok (.bool false)
          else if f.cfg.required && !f.cfg.auto then
            .error (fieldError f "Value can not be none if required")
          else .ok .none
      | _ =>
          if f.isTextOrObjectId && pyFalsy v && !f.cfg.required then .ok .none
          else
            process f
              (toMongoSteps f ++ (if custom then f.cfg.toMongoCustom else []))
              v
termination_by f _ _ => (sizeOf f, 1, 0)

/-- `Document.to_mongo(drop_none=True)` over the schema fields in order
(model.py 206-228): each stored value runs through its field's
`to_mongo`; `None` results are dropped. -/
def docDataToMongo (pending : List (String × Field)) (data : List (String × Value)) :
    Except PyErr (List (String × Value)) :=
  match pending with
  | [] => .ok []
  | (n, fi) :: rest =>
      match toMongo fi true ((dictGet data n).getD .none) with
      | .error e => .error e
      | .ok w =>
          match docDataToMongo rest data with
          | .error e => .error e
          | .ok out =>
              match w with
              | .none => .ok out
              | _ => .ok ((n, w) :: out)
termination_by (sizeOf pending, 2, 0)

/-- The ordered built-in `to_python` pipeline per variant (fields.py:
BooleanField 157, ChoicesMixin 121 + IntegerField 173, FloatField 188,
DateTimeField 225, DateField 245, TimestampField 265, UUIDField 290,
ObjectIdField 301, ListField 323, SetField 388, BinaryFileField 427;
the other variants add no steps). -/
def toPythonSteps (f : Field) : List Step :=
  match f with
  | .base _ => []
  | .text _ => []
  | .email _ => []
  | .url _ _ => []
  | .boolean _ => [pyBool]
  | .integer choices _ => [validateChoices choices f, pyFloat, pyInt]
  | .floatF _ => [pyFloat]
  | .json _ => []
  | .dictF _ => []
  | .datetimeF _ _ => [loadDatetime]
  | .dateF _ => [loadDate]
  | .timestampF _ _ => [timestampToDatetime]
  | .uuidF _ _ => [loadUuid]
  | .objectIdF _ => [loadObjectid]
  | .listF elem _ => [fun v => listToPython elem v]
  | .setF elem _ => [fun v => listToPython elem v, pySetStep]
  | .embedded _ _ => []
  | .binaryFile _ => [decodeJson]
  | .localFile _ _ _ => []
termination_by (sizeOf f, 0, 0)

/-- utils.list_to_python (utils.py 97-98). -/
def listToPython (elem : Field) (v : Value) : Except PyErr Value :=
  match v with
  | .list xs =>
      (match toPythonElems elem xs with
       | .ok ws => .ok (.list ws)
       | .error e => .error e)
  | .str s =>
      (match toPythonElems elem (s.toList.map (fun c => .str (String.mk [c]))) with
       | .ok ws => .ok (.list ws)
       | .error e => .error e)
  | .dict kvs =>
      (match toPythonElems elem (kvs.map (fun p => .str p.1)) with
       | .ok ws => .ok (.list ws)
       | .error e => .error e)
  | _ => .error .typeError
termination_by (sizeOf elem, 3, 0)

/-- Elementwise `field.to_python(i)`. -/
def toPythonElems (elem : Field) (xs : List Value) : Except PyErr (List Value) :=
  match xs with
  | [] => .ok []
  | x :: rest =>
      match toPython elem true x with
      | .error e => .error e
      | .ok w =>
          match toPythonElems elem rest with
          | .error e => .error e
          | .ok ws => .ok (w :: ws)
termination_by (sizeOf elem, 2, sizeOf xs)

/-- `Field.to_python(value, *args, **kwargs)` (fields.py 79-86) plus the
EmbeddedDocumentField override (fields.py 414-418). -/
def toPython : Field → Bool → Value → Except PyErr Value
  | .embedded _ _, _, .none => .ok .none
  | .embedded _ _, _, .dict [] => .ok (.dict [])
  | .embedded schema _, _, .dict kvs =>
      (match docDataToPython schema (docInitData schema kvs) with
       | .ok out => .ok (.dict out)
       | .error e => .error e)
  | .embedded _ _, _, _ => .error .typeError
  | f, custom, v =>
      match v with
      | .none => .ok .none
      | _ =>
          if f.isTextOrObjectId && pyFalsy v then .ok .none
          else
            process f
              (toPythonSteps f ++ (if custom then f.cfg.toPythonCustom else []))
              v
termination_by f _ _ => (sizeOf f, 1, 0)

/-- `Document.to_python()` over the schema fields in order
(model.py 230-241): no `None` dropping. -/
def docDataToPython (pending : List (String × Field)) (data : List (String × Value)) :
    Except PyErr (List (String × Value)) :=
  match pending with
  | [] => .ok []
  | (n, fi) :: rest =>
      match toPython fi true ((dictGet data n).getD .none) with
      | .error e => .error e
      | .ok w =>
          match docDataToPython rest data with
          | .error e => .error e
          | .ok out => .ok ((n, w) :: out)
termination_by (sizeOf pending, 2, 0)
end

/-- `cls._meta.fields[k]` over a schema given as an ordered association
list with unique field names. -/
def lookupField : List (String × Field) → String → Option Field
  | [], _ => Option.none
  | (n, fi) :: rest, k => if n = k then Option.some fi else lookupField rest k

theorem lookupField_sizeOf {schema : List (String × Field)} {k : String}
    {f : Field} (h : lookupField schema k = Option.some f) :
    sizeOf f < sizeOf schema := by
  induction schema with
  | nil => simp [lookupField] at h
  | cons hd tl ih =>
      obtain ⟨n, fi⟩ := hd
      by_cases hn : n = k
      · simp [lookupField, hn] at h
        subst h
        simp
        omega
      · simp [lookupField, hn] at h
        have := ih h
        simp
        omega

/-- `Field.validate_update_operator` base checks (fields.py 88-103). -/
def vuoBase (f : Field) (op : String) : Except PyErr Unit :=
  if op ∈ f.updateOps then
    if op = "$unset" ∧ f.cfg.required then
      .error (fieldError f "$unset operator not allowed in required fields.")
    else .ok ()
  else .error (fieldError f ("Update operator " ++ op ++ " not allowed"))

/-- Fold dotted-path tail segments into nested single-key mappings
(model.py 257-265). -/
def nestValue (segs : List String) (v : Value) : Value :=
  segs.foldr (fun seg acc => .dict [(seg, acc)]) v

/-- The merge step of `Document.validate_update_query` (model.py
296-299): a repeated top-level key whose accumulated value is a dict is
`dict.update`-d (one level deep), otherwise assigned. -/
def mergeKv (acc : List (String × Value)) (k : String) (v : Value) :
    Except PyErr (List (String × Value)) :=
  match dictGet acc k with
  | Option.some (.dict existing) =>
      (match v with
       | .dict src => .ok (dictSet acc k (.dict (dictUpdate existing src)))
       | _ => .error .typeError)
  | _ => .ok (dictSet acc k v)

mutual
/-- `validate_update_operator(operator, value)` with the variant
overrides: DateTimeField (fields.py 229-236), TimestampField (fields.py
269-275) and ListField (fields.py 327-379; SetField inherits it). -/
def validateUpdateOperator : Field → String → Value → Except PyErr Unit
  | .datetimeF tz cfg, op, v =>
      (match vuoBase (.datetimeF tz cfg) op with
       | .error e => .error e
       | .ok _ =>
           if op = "$currentDate" ∧
               ¬(pyEq v (.bool true) ∨
                 pyEq v (.dict [("$type", .str "date")])) then
             .error (fieldError (.datetimeF tz cfg)
               ("DateTimeField $currentDate operator requires field value " ++
                "as True or the date type marker"))
           else .ok ())
  | .timestampF fm cfg, op, v =>
      (match vuoBase (.timestampF fm cfg) op with
       | .error e => .error e
       | .ok _ =>
           if op = "$currentDate" ∧
               ¬pyEq v (.dict [("$type", .str "timestamp")]) then
             .error (fieldError (.timestampF fm cfg)
               ("TimestampField $currentDate operator requires field value " ++
                "as the timestamp type marker"))
           else .ok ())
  | .listF elem cfg, op, v =>
      (match vuoBase (.listF elem cfg) op with
       | .error e => .error e
       | .ok _ => listValueCheck elem op v)
  | .setF elem cfg, op, v =>
      (match vuoBase (.setF elem cfg) op with
       | .error e => .error e
       | .ok _ => listValueCheck elem op v)
  | f, op, _ => vuoBase f op
termination_by f _ _ => (sizeOf f, 0, 0)

/-- The value analysis of `ListField.validate_update_operator` after the
base checks (fields.py 356-379): a dict with a non-marker first key is
rebuilt as `self.field.document_class(**value)` (AttributeError unless
the element field is an embedded-document field) and then passes; the
`isinstance(value, self.field.document_class)` test itself evaluates
`document_class`, so every other value shape also needs an
embedded-document element field; lists validate elementwise; dicts keyed
by `$`/modifiers recurse into the nested schema's update validation;
remaining values fall through. -/
def listValueCheck (elem : Field) (op : String) (v : Value) : Except PyErr Unit :=
  match v with
  | .dict [] => .error .indexError
  | .dict ((k0, w0) :: restKv) =>
      if k0 ∈ "$" :: listUpdateModifiers then
        (match elem with
         | .embedded schema _ => vuoModifierEntries schema op ((k0, w0) :: restKv)
         | _ => .error (.attributeError "document_class"))
      else
        (match elem with
         | .embedded _ _ => .ok ()
         | _ => .error (.attributeError "document_class"))
  | .list xs =>
      (match elem with
       | .embedded schema cfg => vuoElems (.embedded schema cfg) op xs
       | _ => .error (.attributeError "document_class"))
  | _ =>
      (match elem with
       | .embedded _ _ => .ok ()
       | _ => .error (.attributeError "document_class"))
termination_by (sizeOf elem, 3, 0)

/-- `for i in value: self.field.validate_update_operator(operator, i)`
(fields.py 367-370). -/
def vuoElems (elem : Field) (op : String) (xs : List Value) : Except PyErr Unit :=
  match xs with
  | [] => .ok ()
  | x :: rest =>
      match validateUpdateOperator elem op x with
      | .error e => .error e
      | .ok _ => vuoElems elem op rest
termination_by (sizeOf elem, 2, sizeOf xs)

/-- `for modifier, value in value.items(): ...
document.validate_update_query({operator: value})` (fields.py 371-379);
the nested update value must itself be a mapping (`kv.items()`). -/
def vuoModifierEntries (schema : List (String × Field)) (op : String)
    (kvs : List (String × Value)) : Except PyErr Unit :=
  match kvs with
  | [] => .ok ()
  | (_, w) :: rest =>
      match w with
      | .dict inner =>
          (match validateUpdateQuery schema [(op, inner)] with
           | .error e => .error e
           | .ok _ => vuoModifierEntries schema op rest)
      | _ => .error (.attributeError "items")
termination_by (sizeOf schema, 5, sizeOf kvs)

/-- `Document.validate_update_query(update)` (model.py 249-301),
parametrized by the class schema; operators are processed in order, each
producing its mongo key/value mapping. -/
def validateUpdateQuery (schema : List (String × Field))
    (update : List (String × List (String × Value))) :
    Except PyErr (List (String × List (String × Value))) :=
  match update with
  | [] => .ok []
  | (op, kv) :: rest =>
      match vuqEntries schema op kv [] with
      | .error e => .error e
      | .ok mongoKv =>
          match validateUpdateQuery schema rest with
          | .error e => .error e
          | .ok data => .ok ((op, mongoKv) :: data)
termination_by (sizeOf schema, 4, sizeOf update)

/-- The per-entry loop of `validate_update_query` (model.py 256-299):
path expansion, field resolution, operator validation, per-kind
dispatch — the embedded-document branch reads `field.document`
(model.py 276), an attribute EmbeddedDocumentField does not define (its
constructor stores `document_class`, fields.py 395-396), so that branch
raises AttributeError — then value conversion with custom steps
suppressed, and the merge into the accumulated mapping. -/
def vuqEntries (schema : List (String × Field)) (op : String)
    (entries : List (String × Value)) (acc : List (String × Value)) :
    Except PyErr (List (String × Value)) :=
  match entries with
  | [] => .ok acc
  | (kRaw, vRaw) :: rest =>
      let parts := pathSplit kRaw
      let k := if parts.length > 1 then parts.headD kRaw else kRaw
      let v := if parts.length > 1 then nestValue (parts.drop 1) vRaw else vRaw
      match hf : lookupField schema k with
      | Option.none => .error (.valueError (k ++ " is not a field"))
      | Option.some field =>
          if field.isListLike then
            match validateUpdateOperator field op v with
            | .error e => .error e
            | .ok _ =>
                (match mergeKv acc k v with
                 | .error e => .error e
                 | .ok acc' => vuqEntries schema op rest acc')
          else if field.isEmbeddedF then
            .error (.attributeError "document")
          else
            match validateUpdateOperator field op v with
            | .error e => .error e
            | .ok _ =>
                let conv : Except PyErr Value :=
                  if op = "$unset" ∨ op = "$currentDate" then .ok v
                  else toMongo field false v
                match conv with
                | .error e => .error e
                | .ok w =>
                    (match mergeKv acc k w with
                     | .error e => .error e
                     | .ok acc' => vuqEntries schema op rest acc')
termination_by (sizeOf schema, 3, sizeOf entries)
decreasing_by
  all_goals first
    | decreasing_tactic
    | (simp_wf
       apply Prod.Lex.left
       exact lookupField_sizeOf hf)
end

/-- `Model.__init__` projection handling (model.py 311-315).  The guard
is `'_projection' in kwargs and kwargs['_projection'] is not None and
'_id' not in '_projection'`: its third conjunct tests membership of
`'_id'` in the literal string `'_projection'` — not in the supplied
list — and is therefore always true, so `['_id']` is prepended to every
non-None projection.  `Option.none` stands for an absent or None
`_projection` keyword (both reach `Document.__init__` as None). -/
def modelInitProjection (p : Option (List String)) : Option (List String) :=
  match p with
  | Option.none => Option.none
  | Option.some l =>
      if pyStrContains "_projection" "_id" then Option.some l
      else Option.some ("_id" :: l)

/-- `Document._get_field_names` (model.py 187-191): all schema field
names when no projection is stored, else the projection entries. -/
def getFieldNames (schema : List (String × Field)) (proj : Option (List String)) :
    List String :=
  match proj with
  | Option.none => schema.map (fun p => p.1)
  | Option.some l => l

/-- Mutable per-instance state touched by `Field.__set__`. -/
structure DocState where
  data : List (String × Value)
  changed : Bool

/-- `Field.__set__(instance, value)` (fields.py 39-42) for a non-None
instance and a field whose `name` attribute is `fieldName` (names are
assigned at schema assembly, model.py 47-48): the value is stored
verbatim in `instance._data` and `_changed` is raised. -/
def fieldSetAttr (fieldName : String) (s : DocState) (v : Value) : DocState :=
  { data := dictSet s.data fieldName v, changed := true }

/-- `isinstance(self, DateTimeField)`. -/
def Field.isDatetimeF : Field → Bool
  | .datetimeF _ _ => true
  | _ => false

/-- `isinstance(self, TimestampField)`. -/
def Field.isTimestampF : Field → Bool
  | .timestampF _ _ => true
  | _ => false

/-- Discriminator for the uniform error type of the coercion pipeline. -/
def PyErr.isValidationError : PyErr → Bool
  | .validationError _ _ => true
  | _ => false

/-- The constructor defaults of `Field.__init__`: required, not auto. -/
def defaultCfg : Cfg := {}

/-- A field declared with `required=False`. -/
def optionalCfg : Cfg := { required := false }

/-- The acceptance predicate of the email pipeline as the code implements
it (utils.py 66): first `@` at index strictly greater than 1, last `.`
more than two places later, and more than two characters before the end. -/
def emailRuleCode (s : String) : Prop :=
  ∃ i j, idxOfChar '@' s.toList = Option.some i ∧
    lastIdxOfChar '.' s.toList = Option.some j ∧
    1 < i ∧ i + 2 < j ∧ j + 2 < s.toList.length

/-- The positional rule in the claim's words: at-sign index greater
than 0 (not 1), the rest as in the code. -/
def emailRuleClaim (s : String) : Prop :=
  ∃ i j, idxOfChar '@' s.toList = Option.some i ∧
    lastIdxOfChar '.' s.toList = Option.some j ∧
    0 < i ∧ i + 2 < j ∧ j + 2 < s.toList.length

/-- A custom `to_mongo` validation step rejecting negative whole values
(the natural-number example of model.py 282-293). -/
def rejectNegative : Step := fun v =>
  match v with
  | .int n =>
      if n < 0 then .error (.validationError Option.none "negative value")
      else .ok v
  | _ => .ok v

/-- `IntegerField(default=0, to_mongo=[rejectNegative])` named `count`. -/
def countCfg : Cfg :=
  { name := Option.some "count", default := Value.int 0,
    toMongoCustom := [rejectNegative] }

/-- The schema `{count: IntegerField(default=0, to_mongo=[...])}`. -/
def countSchema : List (String × Field) := [("count", .integer [] countCfg)]

/-- The nested schema `{age: IntegerField()}`. -/
def ageSchema : List (String × Field) :=
  [("age", .integer [] { name := Option.some "age" })]

/-- The schema `{profile: EmbeddedDocumentField(schema_with_age)}`. -/
def profileSchema : List (String × Field) :=
  [("profile", .embedded ageSchema { name := Option.some "profile" })]

/-- An embedded-element document schema with a single optional field. -/
def pushInnerSchema : List (String × Field) :=
  [("b", .dictF { name := Option.some "b", required := false })]

/-- The schema `{a: ListField(EmbeddedDocumentField(...))}` used for
dotted `$push` paths. -/
def pushSchema : List (String × Field) :=
  [("a", .listF (.embedded pushInnerSchema { name := Option.some "inner" })
      { name := Option.some "a" })]

/-- `LocalFileField('/m', '/media/')`. -/
def localFileField : Field := .localFile "/m" "/media/" defaultCfg

/-- A binary file payload mapping carrying a body. -/
def filePayload : Value :=
  .dict [("filename", .str "f.txt"), ("body", .str "data"),
         ("content_type", .str "text/plain")]

/-- What `load_local_file` turns `filePayload` into. -/
def fileWire : Value :=
  .dict [("url", .str "/media/f.txt"), ("path", .str "/m/f.txt"),
         ("content_type", .str "text/plain")]

/-- Logical/base-typed values of the identity-round-trip variants with no
caller-supplied custom steps: integers of magnitude at most 2^53 for
IntegerField (without choices) — `float(int)` in the int→float→int
pipeline is exact only on that range, beyond it the low bits round away —
rationals-as-floats for FloatField, booleans for BooleanField, accepted
text for TextField/EmailField, mappings for DictField, object ids for
ObjectIdField, and lists of such values for ListField. -/
inductive BaseTyped : Field → Value → Prop where
  | int (cfg : Cfg) (n : Int) (hn : n.natAbs ≤ 2 ^ 53)
      (hc : cfg.toMongoCustom = []) (hp : cfg.toPythonCustom = []) :
      BaseTyped (.integer [] cfg) (.int n)
  | float (cfg : Cfg) (q : Rat)
      (hc : cfg.toMongoCustom = []) (hp : cfg.toPythonCustom = []) :
      BaseTyped (.floatF cfg) (.float q)
  | bool (cfg : Cfg) (b : Bool)
      (hc : cfg.toMongoCustom = []) (hp : cfg.toPythonCustom = []) :
      BaseTyped (.boolean cfg) (.bool b)
  | text (cfg : Cfg) (s : String)
      (hc : cfg.toMongoCustom = []) (hp : cfg.toPythonCustom = [])
      (hs : s ≠ "")
      (hreq : cfg.required = true → (pyStripList s.toList).isEmpty = false) :
      BaseTyped (.text cfg) (.str s)
  | email (cfg : Cfg) (s : String)
      (hc : cfg.toMongoCustom = []) (hp : cfg.toPythonCustom = [])
      (hr : emailRuleCode s) :
      BaseTyped (.email cfg) (.str s)
  | dict (cfg : Cfg) (kvs : List (String × Value))
      (hc : cfg.toMongoCustom = []) (hp : cfg.toPythonCustom = []) :
      BaseTyped (.dictF cfg) (.dict kvs)
  | objid (cfg : Cfg) (s : String)
      (hc : cfg.toMongoCustom = []) (hp : cfg.toPythonCustom = []) :
      BaseTyped (.objectIdF cfg) (.objectid s)
  | list (elem : Field) (cfg : Cfg) (xs : List Value)
      (hc : cfg.toMongoCustom = []) (hp : cfg.toPythonCustom = [])
      (h : ∀ v ∈ xs, BaseTyped elem v) :
      BaseTyped (.listF elem cfg) (.list xs)

/-
Helper lemmas.
-/

theorem dictGet_dictSet_same (d : List (String × Value)) (k : String) (v : Value) :
    dictGet (dictSet d k v) k = Option.some v := by
  induction d with
  | nil => simp [dictSet, dictGet]
  | cons hd tl ih =>
      obtain ⟨k', w⟩ := hd
      by_cases h : k' = k
      · simp [dictSet, dictGet, h]
      · simp [dictSet, dictGet, h, ih]

theorem dictGet_dictSet_other (d : List (String × Value)) (k m : String)
    (v : Value) (h : m ≠ k) :
    dictGet (dictSet d k v) m = dictGet d m := by
  have hne : ¬(k = m) := fun hh => h hh.symm
  induction d with
  | nil => simp [dictSet, dictGet, hne]
  | cons hd tl ih =>
      obtain ⟨k', w⟩ := hd
      by_cases hk : k' = k
      · subst hk
        simp [dictSet, dictGet, hne]
      · simp [dictSet, dictGet, hk, ih]

theorem fieldError_shape (f : Field) (msg : String) :
    ∃ m, fieldError f msg = .validationError f.cfg.name m := by
  unfold fieldError
  cases h : f.cfg.name <;> simp [h]

theorem idxOfChar_mem {c : Char} {l : List Char} {i : Nat}
    (h : idxOfChar c l = Option.some i) : c ∈ l := by
  induction l generalizing i with
  | nil => simp [idxOfChar] at h
  | cons x xs ih =>
      by_cases hx : x = c
      · simp [hx]
      · simp [idxOfChar, hx] at h
        obtain ⟨j, hj, -⟩ := h
        exact List.mem_cons_of_mem _ (ih hj)

theorem mem_dropWhile_of_mem {c : Char} {p : Char → Bool} {l : List Char}
    (h : c ∈ l) (hp : p c = false) : c ∈ l.dropWhile p := by
  induction l with
  | nil => simp at h
  | cons x xs ih =>
      by_cases hx : p x
      · rw [List.dropWhile_cons_of_pos hx]
        rcases List.mem_cons.mp h with h1 | h2
        · subst h1; rw [hx] at hp; cases hp
        · exact ih h2
      · rw [List.dropWhile_cons_of_neg hx]
        exact h

theorem pyStripList_mem {c : Char} {l : List Char}
    (h : c ∈ l) (hw : c.isWhitespace = false) : c ∈ pyStripList l := by
  unfold pyStripList
  have h1 := mem_dropWhile_of_mem h hw
  have h2 : c ∈ (l.dropWhile Char.isWhitespace).reverse :=
    List.mem_reverse.mpr h1
  have h3 := mem_dropWhile_of_mem h2 hw
  exact List.mem_reverse.mpr h3

theorem pyStripList_not_empty {c : Char} {l : List Char}
    (h : c ∈ l) (hw : c.isWhitespace = false) :
    (pyStripList l).isEmpty = false := by
  have := pyStripList_mem h hw
  cases hm : pyStripList l with
  | nil => rw [hm] at this; simp at this
  | cons a b => simp [hm]

theorem ratTrunc_intCast (n : Int) : ratTrunc (n : Rat) = n := by
  unfold ratTrunc
  split
  · rw [Rat.floor_def']
    simp
  · rw [show ((n : Rat)).ceil = n by simp [Rat.ceil]]

theorem ratTrunc_neg_three : ratTrunc (-3 : Rat) = -3 := by decide

/-- Integers of magnitude at most 2^53 are exactly representable as
IEEE-754 doubles, so the rounding returns them unchanged. -/
theorem roundRatToDouble_intCast (n : Int) (h : n.natAbs ≤ 2 ^ 53) :
    roundRatToDouble (n : Rat) = (n : Rat) := by
  unfold roundRatToDouble
  rw [if_pos]
  exact ⟨Rat.den_intCast n, by rw [Rat.num_intCast]; exact h⟩

/-- On integers of magnitude at most 2^53, `float()` is exact. -/
theorem pyFloat_int_exact (n : Int) (h : n.natAbs ≤ 2 ^ 53) :
    pyFloat (.int n) = .ok (.float (n : Rat)) := by
  have hguard : ¬(2 ^ 1024 * ((n : Rat)).den ≤ ((n : Rat)).num.natAbs) := by
    rw [Rat.den_intCast, Rat.num_intCast, mul_one]
    intro hle
    have hlt : n.natAbs < 2 ^ 1024 :=
      lt_of_le_of_lt h (Nat.pow_lt_pow_right one_lt_two (by norm_num))
    exact absurd hle (not_le.mpr hlt)
  simp only [pyFloat, roundRatToDouble_intCast n h]
  rw [if_neg hguard]

/-- `float(-3)` concretely, with the cast normalised to a `Rat` literal
for rewriting in concrete pipelines. -/
theorem pyFloat_neg_three : pyFloat (.int (-3)) = .ok (.float (-3 : Rat)) := by
  have h := pyFloat_int_exact (-3) (by decide)
  simpa using h

/-- The rounding is faithfully lossy: 2^53 + 1 = 9007199254740993 is not
representable as a double and rounds half-to-even down to
2^53 = 9007199254740992 (CPython: `int(float(2**53 + 1)) == 2**53`),
which is why the integer round trip holds only up to magnitude 2^53. -/
theorem roundRatToDouble_two_pow53_succ :
    roundRatToDouble (9007199254740993 : Rat) = (9007199254740992 : Rat) ∧
    (9007199254740993 : Rat) ≠ (9007199254740992 : Rat) ∧
    (9007199254740993 : Nat) = 2 ^ 53 + 1 ∧
    (9007199254740992 : Nat) = 2 ^ 53 := by decide

/-- Unfolding lemma for `vuqEntries` on a cons cell whose (expanded) key
resolves to a field, phrased without the dependent match so concrete and
symbolic proofs can rewrite with it. -/
theorem vuqEntries_cons (schema : List (String × Field)) (op : String)
    (kRaw : String) (vRaw : Value) (rest : List (String × Value))
    (acc : List (String × Value)) (field : Field)
    (hf : lookupField schema
      (if (pathSplit kRaw).length > 1 then (pathSplit kRaw).headD kRaw
       else kRaw) = Option.some field) :
    vuqEntries schema op ((kRaw, vRaw) :: rest) acc =
      (let k := if (pathSplit kRaw).length > 1 then (pathSplit kRaw).headD kRaw
                else kRaw
       let v := if (pathSplit kRaw).length > 1 then
                  nestValue ((pathSplit kRaw).drop 1) vRaw
                else vRaw
       if field.isListLike then
         match validateUpdateOperator field op v with
         | .error e => .error e
         | .ok _ =>
             (match mergeKv acc k v with
              | .error e => .error e
              | .ok acc' => vuqEntries schema op rest acc')
       else if field.isEmbeddedF then .error (.attributeError "document")
       else
         match validateUpdateOperator field op v with
         | .error e => .error e
         | .ok _ =>
             let conv : Except PyErr Value :=
               if op = "$unset" ∨ op = "$currentDate" then .ok v
               else toMongo field false v
             (match conv with
              | .error e => .error e
              | .ok w =>
                  (match mergeKv acc k w with
                   | .error e => .error e
                   | .ok acc' => vuqEntries schema op rest acc'))) := by
  rw [vuqEntries]
  split
  · rename_i heq
    rw [hf] at heq
    cases heq
  · rename_i fld heq
    rw [hf] at heq
    cases heq
    rfl

theorem vuqEntries_nil (schema : List (String × Field)) (op : String)
    (acc : List (String × Value)) :
    vuqEntries schema op [] acc = .ok acc := by
  rw [vuqEntries]

theorem validateUpdateQuery_nil (schema : List (String × Field)) :
    validateUpdateQuery schema [] = .ok [] := by
  rw [validateUpdateQuery]

theorem toMongo_none_required (f : Field) (hb : f.isBooleanF = false)
    (ht : f.isTimestampF = false) (hr : f.cfg.required = true)
    (ha : f.cfg.auto = false) :
    toMongo f true .none =
      .error (fieldError f "Value can not be none if required") := by
  cases f <;>
    simp_all [toMongo, Field.isBooleanF, Field.isTimestampF, Field.cfg]

theorem toMongo_none_not_required (f : Field) (hb : f.isBooleanF = false)
    (ht : f.isTimestampF = false) (hnr : f.cfg.required = false) :
    toMongo f true .none = .ok .none := by
  cases f <;>
    simp_all [toMongo, Field.isBooleanF, Field.isTimestampF, Field.cfg]

/-
Claim theorems.
-/

/-- C9: constructing a Model with a non-None `_projection` stores
`['_id']` prepended to the supplied entries in order — unconditionally,
because the guard `'_id' not in '_projection'` tests the literal string
`'_projection'` and is always true, duplicating an already supplied
`'_id'` — while a model built without `_projection` (or with None) keeps
projection None, in which case `_get_field_names` lists every schema
field. -/
theorem C9_projection_prepends_id :
    (∀ l : List String,
        modelInitProjection (Option.some l) = Option.some ("_id" :: l)) ∧
    modelInitProjection (Option.some ["_id"]) =
      Option.some ["_id", "_id"] ∧
    modelInitProjection Option.none = Option.none ∧
    (∀ schema : List (String × Field),
        getFieldNames schema Option.none = schema.map (fun p => p.1)) := by
  have hc : pyStrContains "_projection" "_id" = false := rfl
  refine ⟨fun l => ?_, ?_, rfl, fun schema => rfl⟩
  · simp [modelInitProjection, hc]
  · simp [modelInitProjection, hc]

/-- C10: assigning a declared field attribute stores the value verbatim
under the field's name in `_data`, raises `_changed`, and leaves every
other entry of `_data` unchanged (`Field.__set__`, fields.py 39-42). -/
theorem C10_setattr_stores_verbatim :
    ∀ (fieldName : String) (s : DocState) (v : Value),
      (fieldSetAttr fieldName s v).changed = true ∧
      dictGet (fieldSetAttr fieldName s v).data fieldName = Option.some v ∧
      (∀ m, m ≠ fieldName →
        dictGet (fieldSetAttr fieldName s v).data m = dictGet s.data m) := by
  intro n s v
  exact ⟨rfl, dictGet_dictSet_same _ _ _,
    fun m hm => dictGet_dictSet_other _ _ _ _ hm⟩

/-- Witness for C10 at a concrete two-field document state. -/
theorem C10_setattr_witness :
    (fieldSetAttr "a" ⟨[("a", .int 1), ("b", .str "x")], false⟩ (.int 2)).changed = true ∧
    dictGet (fieldSetAttr "a" ⟨[("a", .int 1), ("b", .str "x")], false⟩ (.int 2)).data "a" =
      Option.some (.int 2) ∧
    dictGet (fieldSetAttr "a" ⟨[("a", .int 1), ("b", .str "x")], false⟩ (.int 2)).data "b" =
      Option.some (.str "x") := by
  refine ⟨(C10_setattr_stores_verbatim "a" _ _).1,
    (C10_setattr_stores_verbatim "a" _ _).2.1, ?_⟩
  rw [(C10_setattr_stores_verbatim "a"
    ⟨[("a", .int 1), ("b", .str "x")], false⟩ (.int 2)).2.2 "b" (by decide)]
  rfl

/-- C3: the coercion pipeline `Field._process` turns any step failure
into exactly one uniform field-scoped ValidationError: a step's own
ValidationError is re-raised unchanged with its message, any other
exception is replaced by `ValidationError(instance=self)`, which names
the field and its variant class; successful runs pass through. -/
theorem C3_pipeline_error_policy :
    ∀ (f : Field) (steps : List Step) (v : Value),
      (∀ w, runSteps steps v = .ok w → process f steps v = .ok w) ∧
      (∀ e, runSteps steps v = .error e → e.isValidationError = true →
        process f steps v = .error e) ∧
      (∀ e, runSteps steps v = .error e → e.isValidationError = false →
        process f steps v = .error (fieldError f "")) ∧
      (∀ e, process f steps v = .error e → e.isValidationError = true) := by
  intro f steps v
  refine ⟨?_, ?_, ?_, ?_⟩
  · intro w h
    simp [process, h]
  · intro e h hv
    cases e <;> simp_all [process, wrapStepError, PyErr.isValidationError]
  · intro e h hv
    cases e <;> simp_all [process, wrapStepError, PyErr.isValidationError]
  · intro e h
    unfold process at h
    cases hr : runSteps steps v with
    | ok w => rw [hr] at h; cases h
    | error e' =>
        rw [hr] at h
        injection h with h
        subst h
        obtain ⟨m, hm⟩ := fieldError_shape f ""
        cases e' <;> simp [wrapStepError, hm, PyErr.isValidationError]

/-- Witness for C3: a non-ValidationError step failure (a ValueError from
`float('xx')`) is replaced by the uniform field error, and a step's own
ValidationError is preserved verbatim. -/
theorem C3_pipeline_witness :
    process (.integer [] defaultCfg) [pyFloat] (.str "xx") =
      .error (fieldError (.integer [] defaultCfg) "") ∧
    process (.integer [] defaultCfg) [rejectNegative] (.int (-5)) =
      .error (.validationError Option.none "negative value") :=
  ⟨(C3_pipeline_error_policy (.integer [] defaultCfg) [pyFloat] (.str "xx")).2.2.1
      (.valueError "could not convert string to float") rfl rfl,
   (C3_pipeline_error_policy (.integer [] defaultCfg) [rejectNegative] (.int (-5))).2.1
      (.validationError Option.none "negative value") rfl rfl⟩

/-- C1 counterexample: BooleanField falsifies both halves of the claim —
with the constructor defaults (required=true, auto=false) `to_mongo(None)`
returns False instead of raising, and with required=false it returns
False instead of None (fields.py 63-65). -/
theorem C1_boolean_counterexample :
    defaultCfg.required = true ∧ defaultCfg.auto = false ∧
    toMongo (.boolean defaultCfg) true .none = .ok (.bool false) ∧
    optionalCfg.required = false ∧
    toMongo (.boolean optionalCfg) true .none = .ok (.bool false) := by
  refine ⟨rfl, rfl, ?_, rfl, ?_⟩ <;> simp [toMongo, Field.isBooleanF]

/-- C1 amended: for every variant except BooleanField and TimestampField,
`to_mongo(None)` raises a field-scoped ValidationError when
required=true and auto=false, and returns None when required=false;
BooleanField returns False for None regardless of configuration, and
TimestampField's `to_mongo` raises AttributeError for every value because
it references the undefined attribute `self.load_timestamp`. -/
theorem C1_none_handling_amended :
    (∀ f : Field, f.isBooleanF = false → f.isTimestampF = false →
      ((f.cfg.required = true ∧ f.cfg.auto = false) →
        ∃ m, toMongo f true .none = .error (.validationError f.cfg.name m)) ∧
      (f.cfg.required = false → toMongo f true .none = .ok .none)) ∧
    (∀ c : Cfg, toMongo (.boolean c) true .none = .ok (.bool false)) ∧
    (∀ (fm : Bool) (c : Cfg) (v : Value),
      toMongo (.timestampF fm c) true v =
        .error (.attributeError "load_timestamp")) := by
  refine ⟨fun f hb ht => ⟨fun ⟨hr, ha⟩ => ?_, fun hnr => toMongo_none_not_required f hb ht hnr⟩,
    fun c => by simp [toMongo, Field.isBooleanF],
    fun fm c v => by simp [toMongo]⟩
  obtain ⟨m, hm⟩ := fieldError_shape f "Value can not be none if required"
  exact ⟨m, by rw [toMongo_none_required f hb ht hr ha, hm]⟩

/-- Witness for C1 amended: a required TextField rejects None, an
optional EmailField maps None to None, BooleanField maps None to False. -/
theorem C1_none_handling_witness :
    (∃ m, toMongo (.text defaultCfg) true .none =
      .error (.validationError Option.none m)) ∧
    toMongo (.email optionalCfg) true .none = .ok .none ∧
    toMongo (.boolean defaultCfg) true .none = .ok (.bool false) := by
  refine ⟨?_, (C1_none_handling_amended.1 (.email optionalCfg) rfl rfl).2 rfl,
    C1_none_handling_amended.2.1 defaultCfg⟩
  have h := (C1_none_handling_amended.1 (.text defaultCfg) rfl rfl).1 ⟨rfl, rfl⟩
  simpa [Field.cfg, defaultCfg] using h

/-- C2: translating `{"$set": {"profile.age": 30}}` (or its expanded
form) against a schema whose `profile` is an embedded-document field
raises AttributeError: `validate_update_query` reads `field.document`
(model.py 276) but `EmbeddedDocumentField.__init__` stores the nested
document class as `document_class` (fields.py 395-396). -/
theorem C2_embedded_update_attribute_error :
    validateUpdateQuery profileSchema [("$set", [("profile.age", .int 30)])] =
      .error (.attributeError "document") ∧
    validateUpdateQuery profileSchema
      [("$set", [("profile", .dict [("age", .int 30)])])] =
      .error (.attributeError "document") := by
  constructor
  · rw [validateUpdateQuery,
      vuqEntries_cons profileSchema "$set" "profile.age" (.int 30) [] []
        (.embedded ageSchema { name := Option.some "profile" }) (by rfl)]
    simp [Field.isListLike, Field.isEmbeddedF]
  · rw [validateUpdateQuery,
      vuqEntries_cons profileSchema "$set" "profile" (.dict [("age", .int 30)]) [] []
        (.embedded ageSchema { name := Option.some "profile" }) (by rfl)]
    simp [Field.isListLike, Field.isEmbeddedF]

/-- C4: for a scalar (neither list nor embedded) field resolved from an
undotted path, and an operator other than `$unset`/`$currentDate`, the
translator converts the operand through the field's `to_mongo` with
caller-supplied custom steps suppressed (`custom=False`, model.py
294-295), and emits the converted value under the operator. -/
theorem C4_custom_steps_suppressed :
    ∀ (schema : List (String × Field)) (k : String) (f : Field)
      (op : String) (v w : Value),
      pathSplit k = [k] →
      lookupField schema k = Option.some f →
      f.isListLike = false →
      f.isEmbeddedF = false →
      op ≠ "$unset" → op ≠ "$currentDate" →
      validateUpdateOperator f op v = .ok () →
      toMongo f false v = .ok w →
      validateUpdateQuery schema [(op, [(k, v)])] = .ok [(op, [(k, w)])] := by
  intro schema k f op v w hpath hf hlist hemb hu hc hvuo hconv
  rw [validateUpdateQuery,
    vuqEntries_cons schema op k v [] [] f (by simp [hpath, hf])]
  simp [hpath, hlist, hemb, hvuo, hu, hc, hconv, mergeKv, dictGet, dictSet,
    vuqEntries_nil, validateUpdateQuery_nil]

/-- Witness for C4: `{"$inc": {"count": -3}}` over
`{count: IntegerField(default=0, to_mongo=[reject-negative])}` translates
to itself, even though the field's custom `to_mongo` step rejects the
same value when custom steps run. -/
theorem C4_custom_steps_witness :
    validateUpdateQuery countSchema [("$inc", [("count", .int (-3))])] =
      .ok [("$inc", [("count", .int (-3))])] ∧
    toMongo (.integer [] countCfg) true (.int (-3)) =
      .error (.validationError Option.none "negative value") := by
  constructor
  · exact C4_custom_steps_suppressed countSchema "count" (.integer [] countCfg)
      "$inc" (.int (-3)) (.int (-3)) rfl rfl rfl rfl (by decide) (by decide)
      (by simp [validateUpdateOperator, vuoBase, Field.updateOps, countCfg,
        Field.cfg])
      (by simp [toMongo, toMongoSteps, process, runSteps, loadChoice,
        validateChoices, pyFloat_neg_three, pyInt, countCfg, Field.cfg,
        Field.isTextOrObjectId, ratTrunc_neg_three])
  · simp [toMongo, toMongoSteps, process, runSteps, loadChoice,
      validateChoices, pyFloat_neg_three, pyInt, countCfg, Field.cfg,
      Field.isTextOrObjectId, ratTrunc_neg_three, rejectNegative,
      wrapStepError]

/-- Helper for C5: an operator outside the whitelist is rejected by the
base check of every variant (overrides run `super()` first). -/
theorem vuoBase_not_mem (f : Field) (op : String) (h : op ∉ f.updateOps) :
    vuoBase f op =
      .error (fieldError f ("Update operator " ++ op ++ " not allowed")) := by
  simp [vuoBase, h]

/-- C5 counterexample: `$currentDate` is in DateTimeField's whitelist and
the field is optional, yet a datetime operand — a value of the field's
base type — is rejected by the variant's override (fields.py 229-236),
so whitelist membership alone does not imply acceptance. -/
theorem C5_whitelist_counterexample :
    "$currentDate" ∈ (Field.datetimeF false optionalCfg).updateOps ∧
    optionalCfg.required = false ∧
    validateUpdateOperator (.datetimeF false optionalCfg) "$currentDate"
      (.datetime ⟨2015, 6, 1, 12, 0, 0, 0, false⟩) ≠ .ok () := by
  refine ⟨by decide, rfl, ?_⟩
  simp [validateUpdateOperator, vuoBase, Field.updateOps, optionalCfg,
    Field.cfg, pyEq, fieldError, Field.className]

/-- C5 amended: operators outside a variant's whitelist are always
rejected with a field-scoped ValidationError; for whitelisted operators a
non-required field accepts every value — except the variants whose
overrides constrain the value: DateTimeField's and TimestampField's
`$currentDate` accept their marker values and reject datetime operands,
and ListField/SetField validate the value's structure against the
element field. -/
theorem C5_whitelist_amended :
    (∀ (f : Field) (op : String) (v : Value), op ∉ f.updateOps →
      ∃ m, validateUpdateOperator f op v =
        .error (.validationError f.cfg.name m)) ∧
    (∀ (f : Field) (op : String) (v : Value),
      op ∈ f.updateOps → f.cfg.required = false →
      f.isListLike = false → f.isDatetimeF = false → f.isTimestampF = false →
      validateUpdateOperator f op v = .ok ()) ∧
    (∀ (tz : Bool) (c : Cfg), c.required = false →
      validateUpdateOperator (.datetimeF tz c) "$currentDate" (.bool true) = .ok () ∧
      validateUpdateOperator (.datetimeF tz c) "$currentDate"
        (.dict [("$type", .str "date")]) = .ok () ∧
      (∀ d : DtV, ∃ m, validateUpdateOperator (.datetimeF tz c) "$currentDate"
        (.datetime d) = .error (.validationError c.name m))) ∧
    (∀ (fm : Bool) (c : Cfg), c.required = false →
      validateUpdateOperator (.timestampF fm c) "$currentDate"
        (.dict [("$type", .str "timestamp")]) = .ok () ∧
      (∀ d : DtV, ∃ m, validateUpdateOperator (.timestampF fm c) "$currentDate"
        (.datetime d) = .error (.validationError c.name m))) := by
  refine ⟨?_, ?_, ?_, ?_⟩
  · intro f op v h
    obtain ⟨m, hm⟩ :=
      fieldError_shape f ("Update operator " ++ op ++ " not allowed")
    refine ⟨m, ?_⟩
    cases f <;>
      simp_all [validateUpdateOperator, vuoBase_not_mem, Field.updateOps]
  · intro f op v hmem hr hl hd ht
    cases f <;>
      simp_all [validateUpdateOperator, vuoBase, Field.isListLike,
        Field.isDatetimeF, Field.isTimestampF, Field.cfg, Field.updateOps]
  · intro tz c hr
    refine ⟨by simp [validateUpdateOperator, vuoBase, Field.updateOps,
        Field.cfg, hr, pyEq],
      by simp [validateUpdateOperator, vuoBase, Field.updateOps, Field.cfg,
        hr, pyEq, pyEqDict],
      fun d => ?_⟩
    obtain ⟨m, hm⟩ := fieldError_shape (.datetimeF tz c)
      ("DateTimeField $currentDate operator requires field value " ++
       "as True or the date type marker")
    refine ⟨m, ?_⟩
    have hv : validateUpdateOperator (.datetimeF tz c) "$currentDate"
        (.datetime d) =
        .error (fieldError (.datetimeF tz c)
          ("DateTimeField $currentDate operator requires field value " ++
           "as True or the date type marker")) := by
      simp [validateUpdateOperator, vuoBase, Field.updateOps, Field.cfg,
        hr, pyEq]
    rw [hv, hm]
    rfl
  · intro fm c hr
    refine ⟨by simp [validateUpdateOperator, vuoBase, Field.updateOps,
        Field.cfg, hr, pyEq, pyEqDict], fun d => ?_⟩
    obtain ⟨m, hm⟩ := fieldError_shape (.timestampF fm c)
      ("TimestampField $currentDate operator requires field value " ++
       "as the timestamp type marker")
    refine ⟨m, ?_⟩
    have hv : validateUpdateOperator (.timestampF fm c) "$currentDate"
        (.datetime d) =
        .error (fieldError (.timestampF fm c)
          ("TimestampField $currentDate operator requires field value " ++
           "as the timestamp type marker")) := by
      simp [validateUpdateOperator, vuoBase, Field.updateOps, Field.cfg,
        hr, pyEq]
    rw [hv, hm]
    rfl

/-- Witness for C5 amended: `$push` is rejected on IntegerField, `$inc`
accepted on an optional IntegerField, and `$currentDate` accepted on an
optional DateTimeField with the marker value True. -/
theorem C5_whitelist_witness :
    (∃ m, validateUpdateOperator (.integer [] defaultCfg) "$push" (.int 1) =
      .error (.validationError Option.none m)) ∧
    validateUpdateOperator (.integer [] optionalCfg) "$inc" (.int 5) = .ok () ∧
    validateUpdateOperator (.datetimeF false optionalCfg) "$currentDate"
      (.bool true) = .ok () := by
  refine ⟨?_, ?_, ((C5_whitelist_amended.2.2.1 false optionalCfg) rfl).1⟩
  · have h := C5_whitelist_amended.1 (.integer [] defaultCfg) "$push" (.int 1)
      (by decide)
    simpa [Field.cfg, defaultCfg] using h
  · exact C5_whitelist_amended.2.1 (.integer [] optionalCfg) "$inc" (.int 5)
      (by decide) rfl rfl rfl rfl

/-- C6 counterexample: two `$push` paths sharing the depth-2 prefix
`a.b` do not merge — `mongo_kv[k].update(v)` (model.py 297) is a
one-level `dict.update`, so the later path's subtree replaces the
earlier one and the leaf `c` is lost from the output. -/
theorem C6_deep_merge_counterexample :
    validateUpdateQuery pushSchema
      [("$push", [("a.b.c", .int 1), ("a.b.d", .int 2)])] =
      .ok [("$push", [("a", .dict [("b", .dict [("d", .int 2)])])])] ∧
    dictGet [("d", Value.int 2)] "c" = Option.none := by
  refine ⟨?_, rfl⟩
  have hvuo : ∀ w : Value, validateUpdateOperator
      (.listF (.embedded pushInnerSchema { name := Option.some "inner" })
        { name := Option.some "a" }) "$push"
      (.dict [("b", w)]) = .ok () := by
    intro w
    simp +decide [validateUpdateOperator, vuoBase, Field.updateOps, Field.cfg,
      listValueCheck, listUpdateModifiers]
  rw [validateUpdateQuery,
    vuqEntries_cons pushSchema "$push" "a.b.c" (.int 1) [("a.b.d", .int 2)] []
      (.listF (.embedded pushInnerSchema { name := Option.some "inner" })
        { name := Option.some "a" }) rfl]
  simp +decide [show pathSplit "a.b.c" = ["a", "b", "c"] from rfl,
    show pathSplit "a.b.d" = ["a", "b", "d"] from rfl,
    nestValue, Field.isListLike, hvuo, mergeKv, dictGet, dictSet, dictUpdate,
    vuqEntries_nil,
    vuqEntries_cons pushSchema "$push" "a.b.d" (.int 2) []
      [("a", Value.dict [("b", Value.dict [("c", Value.int 1)])])]
      (.listF (.embedded pushInnerSchema { name := Option.some "inner" })
        { name := Option.some "a" }) rfl,
    validateUpdateQuery_nil]

/-- C6 amended: paths under one operator that share only the top-level
field name merge into one mapping (both leaves kept), but paths sharing
a nesting prefix of depth at least two are merged one level deep only:
the later path's nested mapping replaces the earlier one under the
shared second-level key, losing the earlier leaf. -/
theorem C6_merge_amended :
    ∀ v1 v2 : Value,
      validateUpdateQuery pushSchema
        [("$push", [("a.b.c", v1), ("a.b.d", v2)])] =
        .ok [("$push", [("a", .dict [("b", .dict [("d", v2)])])])] ∧
      validateUpdateQuery pushSchema
        [("$push", [("a.c", v1), ("a.d", v2)])] =
        .ok [("$push", [("a", .dict [("c", v1), ("d", v2)])])] := by
  intro v1 v2
  have hvuo : ∀ (k0 : String) (w : Value), k0 ∉ "$" :: listUpdateModifiers →
      validateUpdateOperator
        (.listF (.embedded pushInnerSchema { name := Option.some "inner" })
          { name := Option.some "a" }) "$push"
        (.dict [(k0, w)]) = .ok () := by
    intro k0 w hk
    simp +decide [validateUpdateOperator, vuoBase, Field.updateOps, Field.cfg,
      listValueCheck, hk]
  constructor
  · rw [validateUpdateQuery,
      vuqEntries_cons pushSchema "$push" "a.b.c" v1 [("a.b.d", v2)] []
        (.listF (.embedded pushInnerSchema { name := Option.some "inner" })
          { name := Option.some "a" }) rfl]
    simp +decide [show pathSplit "a.b.c" = ["a", "b", "c"] from rfl,
      show pathSplit "a.b.d" = ["a", "b", "d"] from rfl,
      nestValue, Field.isListLike, hvuo "b" _ (by decide), mergeKv, dictGet,
      dictSet, dictUpdate, vuqEntries_nil,
      vuqEntries_cons pushSchema "$push" "a.b.d" v2 []
        [("a", Value.dict [("b", Value.dict [("c", v1)])])]
        (.listF (.embedded pushInnerSchema { name := Option.some "inner" })
          { name := Option.some "a" }) rfl,
      validateUpdateQuery_nil]
  · rw [validateUpdateQuery,
      vuqEntries_cons pushSchema "$push" "a.c" v1 [("a.d", v2)] []
        (.listF (.embedded pushInnerSchema { name := Option.some "inner" })
          { name := Option.some "a" }) rfl]
    simp +decide [show pathSplit "a.c" = ["a", "c"] from rfl,
      show pathSplit "a.d" = ["a", "d"] from rfl,
      nestValue, Field.isListLike, hvuo "c" _ (by decide),
      hvuo "d" _ (by decide), mergeKv, dictGet, dictSet, dictUpdate,
      vuqEntries_nil,
      vuqEntries_cons pushSchema "$push" "a.d" v2 []
        [("a", Value.dict [("c", v1)])]
        (.listF (.embedded pushInnerSchema { name := Option.some "inner" })
          { name := Option.some "a" }) rfl,
      validateUpdateQuery_nil]

theorem email_toMongo_cases (cfg : Cfg) (hc : cfg.toMongoCustom = [])
    (s : String) (hs : s ≠ "") :
    toMongo (.email cfg) true (.str s) =
      (if cfg.required = true ∧ pyStripList s.toList = [] then
        .error (fieldError (.email cfg) "Value can not be empty")
       else
         match idxOfChar '@' s.toList, lastIdxOfChar '.' s.toList with
         | Option.some i, Option.some j =>
             if 1 < i ∧ i + 2 < j ∧ j + 2 < s.toList.length then .ok (.str s)
             else .error (fieldError (.email cfg) "")
         | _, _ => .error (fieldError (.email cfg) "")) := by
  have hfalsy : pyFalsy (.str s) = false := by simp [pyFalsy, hs]
  have hu : reprValue (Value.str s) = s := rfl
  have hdata : s.toList = s.data := rfl
  obtain ⟨me, hme⟩ := fieldError_shape (.email cfg) "Value can not be empty"
  obtain ⟨md, hmd⟩ := fieldError_shape (.email cfg) ""
  simp only [toMongo, Field.isTextOrObjectId, hfalsy, Bool.and_false,
    Bool.false_and, Bool.and_true, Bool.true_and, if_false,
    toMongoSteps, hc, List.append_nil, process, runSteps, pyUnicode, hu]
  by_cases hreq : cfg.required = true ∧ pyStripList s.data = []
  · rw [hdata]
    simp [validateText, Field.cfg, hreq, wrapStepError, hme]
  · cases hidx : idxOfChar '@' s.data with
    | none =>
        simp [validateText, Field.cfg, hdata, hreq, validateEmail, hidx,
          wrapStepError]
    | some i =>
        cases hjdx : lastIdxOfChar '.' s.data with
        | none =>
            simp [validateText, Field.cfg, hdata, hreq, validateEmail, hidx,
              hjdx, wrapStepError]
        | some j =>
            by_cases hcond : 1 < i ∧ i + 2 < j ∧ j + 2 < s.length
            · simp [validateText, Field.cfg, hdata, hreq, validateEmail,
                hidx, hjdx, hcond, hc, runSteps]
            · simp [validateText, Field.cfg, hdata, hreq, validateEmail,
                hidx, hjdx, hcond, wrapStepError, hmd]

theorem emailRuleCode_ne_empty {s : String} (h : emailRuleCode s) :
    s ≠ "" := by
  obtain ⟨i, j, hi, -, -⟩ := h
  intro he
  subst he
  simp [idxOfChar] at hi

theorem pyStripList_ne_nil {c : Char} {l : List Char}
    (h : c ∈ l) (hw : c.isWhitespace = false) : pyStripList l ≠ [] := by
  have := pyStripList_mem h hw
  intro hnil
  rw [hnil] at this
  simp at this

theorem email_accept (cfg : Cfg) (hc : cfg.toMongoCustom = [])
    (s : String) (hr : emailRuleCode s) :
    toMongo (.email cfg) true (.str s) = .ok (.str s) := by
  obtain ⟨i, j, hi, hj, h1, h2, h3⟩ := hr
  have hs : s ≠ "" := emailRuleCode_ne_empty ⟨i, j, hi, hj, h1, h2, h3⟩
  have hat : '@' ∈ s.toList := idxOfChar_mem hi
  have hstrip : pyStripList s.toList ≠ [] :=
    pyStripList_ne_nil hat (by decide)
  rw [email_toMongo_cases cfg hc s hs]
  rw [if_neg (fun hpair => hstrip hpair.2)]
  simp [show idxOfChar '@' s.data = Option.some i from hi,
    show lastIdxOfChar '.' s.data = Option.some j from hj,
    h1, h2, show j + 2 < s.length from h3]

/-- C7 counterexample: `"f@bar.com"` satisfies the claim's positional
rule (at-sign index 1 > 0, last dot index 5 > 1 + 2, 5 + 2 < 9), yet the
code rejects it — utils.validate_email requires the at-sign index to be
strictly greater than 1, and tests.py line 47 asserts this rejection. -/
theorem C7_email_index_counterexample :
    emailRuleClaim "f@bar.com" ∧
    toMongo (.email defaultCfg) true (.str "f@bar.com") =
      .error (.validationError Option.none "Not a valid EmailField") := by
  constructor
  · exact ⟨1, 5, rfl, rfl, by omega, by omega, by decide⟩
  · rw [email_toMongo_cases defaultCfg rfl "f@bar.com" (by decide)]
    simp +decide [fieldError, Field.cfg, defaultCfg, Field.className,
      show idxOfChar '@' "f@bar.com".data = Option.some 1 from rfl,
      show lastIdxOfChar '.' "f@bar.com".data = Option.some 5 from rfl]

/-- C7 amended: `EmailField().to_mongo(s)` returns `s` exactly for the
strings satisfying the code's positional rule — first at-sign index
greater than 1 (not 0), last dot index greater than the at-sign index
plus 2, and the dot more than two characters before the end — and raises
a field-scoped ValidationError for every other string. -/
theorem C7_email_positional_rule_amended :
    ∀ s : String,
      (emailRuleCode s →
        toMongo (.email defaultCfg) true (.str s) = .ok (.str s)) ∧
      (¬ emailRuleCode s →
        ∃ fl m, toMongo (.email defaultCfg) true (.str s) =
          .error (.validationError fl m)) := by
  intro s
  constructor
  · exact fun hr => email_accept defaultCfg rfl s hr
  · intro hr
    by_cases hs : s = ""
    · subst hs
      refine ⟨Option.none, "Value can not be empty", ?_⟩
      simp [toMongo, toMongoSteps, process, runSteps, pyUnicode, validateText,
        Field.cfg, Field.isTextOrObjectId, pyFalsy, pyStripList, defaultCfg,
        wrapStepError, fieldError, Field.className, reprValue]
    · rw [email_toMongo_cases defaultCfg rfl s hs]
      by_cases hstrip : pyStripList s.toList = []
      · obtain ⟨m, hm⟩ :=
          fieldError_shape (.email defaultCfg) "Value can not be empty"
        exact ⟨_, m, by rw [if_pos ⟨rfl, hstrip⟩, hm]⟩
      · rw [if_neg (fun hp => hstrip hp.2)]
        obtain ⟨m, hm⟩ := fieldError_shape (.email defaultCfg) ""
        cases hidx : idxOfChar '@' s.toList with
        | none =>
            refine ⟨Option.none, m, ?_⟩
            simp only [hidx]
            rw [hm]
            rfl
        | some i =>
            cases hjdx : lastIdxOfChar '.' s.toList with
            | none =>
                refine ⟨Option.none, m, ?_⟩
                simp only [hidx, hjdx]
                rw [hm]
                rfl
            | some j =>
                have hcond : ¬(1 < i ∧ i + 2 < j ∧ j + 2 < s.toList.length) :=
                  fun hcond => hr ⟨i, j, hidx, hjdx, hcond.1, hcond.2.1,
                    hcond.2.2⟩
                refine ⟨Option.none, m, ?_⟩
                simp only [hidx, hjdx]
                rw [if_neg hcond, hm]
                rfl

/-- Witness for C7 amended: the spec's own accepted example. -/
theorem C7_email_witness :
    toMongo (.email defaultCfg) true (.str "foo@bar.com") =
      .ok (.str "foo@bar.com") :=
  (C7_email_positional_rule_amended "foo@bar.com").1
    ⟨3, 7, rfl, rfl, by omega, by omega, by decide⟩

theorem toMongoElems_id (elem : Field) (xs : List Value)
    (h : ∀ v ∈ xs, toMongo elem true v = .ok v) :
    toMongoElems elem xs = .ok xs := by
  induction xs with
  | nil => rw [toMongoElems]
  | cons x rest ih =>
      rw [toMongoElems, h x (List.mem_cons_self x rest),
        ih (fun v hv => h v (List.mem_cons_of_mem x hv))]

theorem toPythonElems_id (elem : Field) (xs : List Value)
    (h : ∀ v ∈ xs, toPython elem true v = .ok v) :
    toPythonElems elem xs = .ok xs := by
  induction xs with
  | nil => rw [toPythonElems]
  | cons x rest ih =>
      rw [toPythonElems, h x (List.mem_cons_self x rest),
        ih (fun v hv => h v (List.mem_cons_of_mem x hv))]

/-- C8 counterexample: LocalFileField breaks the round trip — `to_mongo`
on a payload carrying a body returns the `{url, path, content_type}`
descriptor and `to_python` is the identity, so the original payload's
`body` (and `filename`) is not recovered in any form. -/
theorem C8_roundtrip_counterexample :
    toMongo localFileField true filePayload = .ok fileWire ∧
    toPython localFileField true fileWire = .ok fileWire ∧
    dictGet [("filename", Value.str "f.txt"), ("body", .str "data"),
      ("content_type", .str "text/plain")] "body" =
      Option.some (.str "data") ∧
    dictGet [("url", Value.str "/media/f.txt"), ("path", .str "/m/f.txt"),
      ("content_type", .str "text/plain")] "body" = Option.none := by
  refine ⟨?_, ?_, rfl, rfl⟩
  · simp +decide [toMongo, toMongoSteps, process, runSteps, loadLocalFile,
      localFileField, filePayload, fileWire, dictGet, defaultCfg,
      Field.cfg, Field.isTextOrObjectId,
      show pyPathJoin "/media/" "f.txt" = "/media/f.txt" from rfl,
      show pyPathJoin "/m" "f.txt" = "/m/f.txt" from rfl]
  · simp +decide [toPython, toPythonSteps, process, runSteps, localFileField,
      fileWire, defaultCfg, Field.cfg, Field.isTextOrObjectId]

/-- C8 amended: for the identity-wire variants — IntegerField (without
choices) on integers of magnitude at most 2^53, FloatField, BooleanField,
TextField, EmailField, DictField, ObjectIdField, and ListField over any
of these — with no caller-supplied custom steps, every base-typed value
accepted by `to_mongo` round-trips: `to_python(to_mongo(v)) = v` (indeed
`to_mongo(v) = v` and `to_python(v) = v`).  The 2^53 magnitude bound on
integers is necessary: IntegerField converts through `float()`, which
rounds larger integers to the nearest double
(`int(float(2**53 + 1)) == 2**53`). -/
theorem C8_roundtrip_amended :
    ∀ (f : Field) (v : Value), BaseTyped f v →
      toMongo f true v = .ok v ∧ toPython f true v = .ok v := by
  intro f v h
  induction h with
  | int cfg n hn hc hp =>
      constructor
      · simp [toMongo, toMongoSteps, process, runSteps, loadChoice,
          validateChoices, pyFloat_int_exact n hn, pyInt, hc, Field.cfg,
          Field.isTextOrObjectId, ratTrunc_intCast]
      · simp [toPython, toPythonSteps, process, runSteps, validateChoices,
          pyFloat_int_exact n hn, pyInt, hp, Field.cfg,
          Field.isTextOrObjectId, ratTrunc_intCast]
  | float cfg q hc hp =>
      constructor
      · simp [toMongo, toMongoSteps, process, runSteps, pyFloat, hc,
          Field.cfg, Field.isTextOrObjectId]
      · simp [toPython, toPythonSteps, process, runSteps, pyFloat, hp,
          Field.cfg, Field.isTextOrObjectId]
  | bool cfg b hc hp =>
      constructor
      · simp [toMongo, toMongoSteps, process, runSteps, cleanBool, pyBool,
          pyFalsy, hc, Field.cfg, Field.isTextOrObjectId, Field.isBooleanF]
      · simp [toPython, toPythonSteps, process, runSteps, pyBool, pyFalsy,
          hp, Field.cfg, Field.isTextOrObjectId]
  | text cfg s hc hp hs hreq =>
      have hfalsy : pyFalsy (.str s) = false := by simp [pyFalsy, hs]
      constructor
      · cases hcr : cfg.required with
        | true =>
            have hst := hreq hcr
            have hstne : pyStripList s.toList ≠ [] := by
              intro hh
              rw [hh] at hst
              simp at hst
            have hstne2 : ¬(pyStripList s.data = []) := hstne
            simp [toMongo, toMongoSteps, process, runSteps, pyUnicode,
              validateText, hc, Field.cfg, Field.isTextOrObjectId, hfalsy,
              hcr, hstne2, reprValue]
        | false =>
            simp [toMongo, toMongoSteps, process, runSteps, pyUnicode,
              validateText, hc, Field.cfg, Field.isTextOrObjectId, hfalsy,
              hcr, reprValue]
      · simp [toPython, toPythonSteps, process, runSteps, hp, Field.cfg,
          Field.isTextOrObjectId, hfalsy]
  | email cfg s hc hp hr =>
      have hs : s ≠ "" := emailRuleCode_ne_empty hr
      have hfalsy : pyFalsy (.str s) = false := by simp [pyFalsy, hs]
      refine ⟨email_accept cfg hc s hr, ?_⟩
      simp [toPython, toPythonSteps, process, runSteps, hp, Field.cfg,
        Field.isTextOrObjectId, hfalsy]
  | dict cfg kvs hc hp =>
      constructor
      · simp [toMongo, toMongoSteps, process, runSteps, pyDictStep, hc,
          Field.cfg, Field.isTextOrObjectId]
      · simp [toPython, toPythonSteps, process, runSteps, hp, Field.cfg,
          Field.isTextOrObjectId]
  | objid cfg s hc hp =>
      constructor
      · simp [toMongo, toMongoSteps, process, runSteps, loadObjectid, hc,
          Field.cfg, Field.isTextOrObjectId, pyFalsy]
      · simp [toPython, toPythonSteps, process, runSteps, loadObjectid, hp,
          Field.cfg, Field.isTextOrObjectId, pyFalsy]
  | list elem cfg xs hc hp h ih =>
      have hm : toMongoElems elem xs = .ok xs :=
        toMongoElems_id elem xs (fun v hv => (ih v hv).1)
      have hp2 : toPythonElems elem xs = .ok xs :=
        toPythonElems_id elem xs (fun v hv => (ih v hv).2)
      constructor
      · simp [toMongo, toMongoSteps, process, runSteps, listToMongo, hm, hc,
          Field.cfg, Field.isTextOrObjectId]
      · simp [toPython, toPythonSteps, process, runSteps, listToPython, hp2,
          hp, Field.cfg, Field.isTextOrObjectId]

/-- Witness for C8 amended: an integer survives the round trip through an
IntegerField, and a list of integers through a ListField of integers. -/
theorem C8_roundtrip_witness :
    (toMongo (.integer [] defaultCfg) true (.int 7) = .ok (.int 7) ∧
      toPython (.integer [] defaultCfg) true (.int 7) = .ok (.int 7)) ∧
    (toMongo (.listF (.integer [] defaultCfg) optionalCfg) true
        (.list [.int 1, .int 2]) = .ok (.list [.int 1, .int 2]) ∧
      toPython (.listF (.integer [] defaultCfg) optionalCfg) true
        (.list [.int 1, .int 2]) = .ok (.list [.int 1, .int 2])) :=
  ⟨C8_roundtrip_amended _ _ (BaseTyped.int defaultCfg 7 (by decide) rfl rfl),
   C8_roundtrip_amended _ _ (BaseTyped.list (.integer [] defaultCfg)
     optionalCfg [.int 1, .int 2] rfl rfl
     (fun v hv => by
        simp only [List.mem_cons, List.not_mem_nil, or_false] at hv
        rcases hv with h | h
        · subst h
          exact BaseTyped.int defaultCfg 1 (by decide) rfl rfl
        · subst h
          exact BaseTyped.int defaultCfg 2 (by decide) rfl rfl))⟩

end Mongomodel
